import Mathlib

/-!
Verification of the deltawash-pi real-time wash interpreter pipeline.

Shallow embedding of the Python source under `src/deltawash_pi/`:
timestamps and millisecond counters are `Int` (Python integers), float-valued
configuration fields (motion thresholds, confidences) are `Rat` (the claims
under scrutiny depend only on order comparisons, never on rounding),
fallible metadata lookups are `Option`, and every stateful component
(`SessionManager`, `InterpreterStateMachine`, `DemoSignalSynthesizer`,
`Esp8266Client`) is modelled by explicit state passing.
-/

namespace Deltawash

/-! ## Enumerations (`interpreter/types.py`) -/

inductive StepID
  | STEP_2 | STEP_3 | STEP_4 | STEP_5 | STEP_6 | STEP_7
  deriving DecidableEq, Repr, Fintype

/-- The `.value` string of a `StepID` member. -/
def StepID.value : StepID → String
  | .STEP_2 => "STEP_2"
  | .STEP_3 => "STEP_3"
  | .STEP_4 => "STEP_4"
  | .STEP_5 => "STEP_5"
  | .STEP_6 => "STEP_6"
  | .STEP_7 => "STEP_7"

/-- `StepID(value)` constructor lookup; `none` models the `ValueError` branch. -/
def parseStepID (s : String) : Option StepID :=
  if s = "STEP_2" then some .STEP_2
  else if s = "STEP_3" then some .STEP_3
  else if s = "STEP_4" then some .STEP_4
  else if s = "STEP_5" then some .STEP_5
  else if s = "STEP_6" then some .STEP_6
  else if s = "STEP_7" then some .STEP_7
  else none

/-- `VALID_STEP_IDS` order, which is also the interpreter's `_step_order`
(the config loader requires all six steps, so `_build_thresholds` keeps them all). -/
def stepOrder : List StepID :=
  [.STEP_2, .STEP_3, .STEP_4, .STEP_5, .STEP_6, .STEP_7]

inductive StepOrientation
  | NONE | RIGHT_OVER_LEFT | LEFT_OVER_RIGHT | LEFT_THUMB | RIGHT_THUMB
  | LEFT_FINGERTIPS | RIGHT_FINGERTIPS
  deriving DecidableEq, Repr

def StepOrientation.value : StepOrientation → String
  | .NONE => "NONE"
  | .RIGHT_OVER_LEFT => "RIGHT_OVER_LEFT"
  | .LEFT_OVER_RIGHT => "LEFT_OVER_RIGHT"
  | .LEFT_THUMB => "LEFT_THUMB"
  | .RIGHT_THUMB => "RIGHT_THUMB"
  | .LEFT_FINGERTIPS => "LEFT_FINGERTIPS"
  | .RIGHT_FINGERTIPS => "RIGHT_FINGERTIPS"

/-- `StepOrientation(value)`; `none` models the `ValueError` branch. -/
def parseOrientation (s : String) : Option StepOrientation :=
  if s = "NONE" then some .NONE
  else if s = "RIGHT_OVER_LEFT" then some .RIGHT_OVER_LEFT
  else if s = "LEFT_OVER_RIGHT" then some .LEFT_OVER_RIGHT
  else if s = "LEFT_THUMB" then some .LEFT_THUMB
  else if s = "RIGHT_THUMB" then some .RIGHT_THUMB
  else if s = "LEFT_FINGERTIPS" then some .LEFT_FINGERTIPS
  else if s = "RIGHT_FINGERTIPS" then some .RIGHT_FINGERTIPS
  else none

inductive StepState
  | NOT_STARTED | IN_PROGRESS | COMPLETED | UNCERTAIN
  deriving DecidableEq, Repr

inductive UncertaintyReason
  | AMBIGUOUS_HANDS | LOW_CONFIDENCE | CAMERA_DROPPED | ROI_EXIT
  deriving DecidableEq, Repr

inductive LedSignalState
  | CURRENT | COMPLETED | IDLE
  deriving DecidableEq, Repr

def LedSignalState.value : LedSignalState → String
  | .CURRENT => "CURRENT"
  | .COMPLETED => "COMPLETED"
  | .IDLE => "IDLE"

inductive StepSignalSource
  | MODEL | HEURISTIC | DEMO
  deriving DecidableEq, Repr

/-! ## Metadata (the open `Dict[str, Any]` on `FramePacket`)

Values that actually occur on the demo/replay path are ints, strings and
bools.  Python's `isinstance(value, int)` is true for `bool` as well, which
`MetaValue.asPyInt` reproduces. -/

inductive MetaValue
  | int (i : Int)
  | str (s : String)
  | bool (b : Bool)
  deriving DecidableEq, Repr

/-- The value `isinstance(v, int)` sees: Python `bool` is a subclass of `int`. -/
def MetaValue.asPyInt : MetaValue → Option Int
  | .int i => some i
  | .bool b => some (if b then 1 else 0)
  | .str _ => none

/-- Python truthiness of a metadata value. -/
def MetaValue.pyTruthy : MetaValue → Bool
  | .int i => i ≠ 0
  | .str s => s ≠ ""
  | .bool b => b

abbrev Metadata := List (String × MetaValue)

/-- `metadata.get(key)` (first binding wins; our lists never repeat a key). -/
def mdGet (md : Metadata) (key : String) : Option MetaValue :=
  (md.find? (fun kv => kv.1 = key)).map (·.2)

/-- `metadata.setdefault(key, v)`. -/
def mdSetDefault (md : Metadata) (key : String) (v : MetaValue) : Metadata :=
  if (mdGet md key).isSome then md else md ++ [(key, v)]

/-- Truthiness of `metadata.get(key)` (missing key is `None`, falsy). -/
def mdTruthy (md : Metadata) (key : String) : Bool :=
  match mdGet md key with
  | some v => v.pyTruthy
  | none => false

/-- Truthiness of an `Optional[str]` (Python: `None` and `""` are falsy). -/
def pyTruthyStr : Option String → Bool
  | none => false
  | some s => s ≠ ""

/-- Whether the metadata map carries a value that `isinstance(·, int)`
accepts under `key`. -/
def mdHasInt (md : Metadata) (key : String) : Bool :=
  match mdGet md key with
  | some v => v.asPyInt.isSome
  | none => false

/-! ### Rational arithmetic helpers

`Rat.mul`/`Rat.add`/`Rat.inv` are `@[irreducible]`, which blocks evaluating
concrete runs of the model inside proofs, so the few places where the source
multiplies, divides or subtracts float values use these `Rat.divInt`-based
equivalents (proved equal to `*`, `/`, `-` in `ratMul_eq`, `ratDiv_eq`,
`ratSub_eq` below). -/

def ratMul (a b : Rat) : Rat := Rat.divInt (a.num * b.num) ((a.den : Int) * (b.den : Int))

def ratDiv (a b : Rat) : Rat := Rat.divInt (a.num * (b.den : Int)) ((a.den : Int) * b.num)

def ratSub (a b : Rat) : Rat :=
  Rat.divInt (a.num * (b.den : Int) - b.num * (a.den : Int)) ((a.den : Int) * (b.den : Int))

/-! ## Value types (`interpreter/types.py`, `config/loader.py`) -/

structure ROI where
  x : Int
  y : Int
  width : Int
  height : Int
  deriving DecidableEq, Repr

structure MotionMetrics where
  mean_velocity : Rat
  relative_motion : Rat
  deriving DecidableEq, Repr

structure FramePacket where
  frame_id : Int
  timestamp_ms : Int
  roi : ROI
  config_version : String
  motion : MotionMetrics
  metadata : Metadata
  deriving DecidableEq, Repr

structure StepSignal where
  step_id : StepID
  orientation : StepOrientation
  confidence : Rat
  is_confident : Bool
  timestamp_ms : Int
  source : StepSignalSource
  notes : Option String
  deriving DecidableEq, Repr

structure StepStatus where
  step_id : StepID
  orientation : StepOrientation := .NONE
  state : StepState := .NOT_STARTED
  accumulated_ms : Int := 0
  completed_ts : Option Int := none
  uncertainty_count : Nat := 0
  deriving DecidableEq, Repr

structure UncertaintyEvent where
  timestamp_ms : Int
  reason : UncertaintyReason
  details : Option String
  deriving DecidableEq, Repr

structure SessionConfig where
  motion_threshold : Rat
  relative_motion_threshold : Rat
  start_window_frames : Nat
  stop_timeout_ms : Int
  min_hands : Int
  require_motion : Bool
  deriving DecidableEq, Repr

structure StepThreshold where
  duration_ms : Int
  confidence_min : Rat
  orientation_hint : Option String
  deriving DecidableEq, Repr

structure Esp8266Config where
  enabled : Bool
  host : Option String := none
  endpoint : Option String := none
  timeout_ms : Int := 500
  blink_hz : Rat := 1
  deriving DecidableEq, Repr

/-- The subset of `Config` the modelled components read.  The loader requires
an entry for every one of the six step ids, so `steps` is a total function. -/
structure Config where
  config_version : String
  roi : ROI
  session : SessionConfig
  steps : StepID → StepThreshold
  esp8266 : Esp8266Config

/-! ## Interpreter state machine (`interpreter/state_machine.py`) -/

/-- State owned by `InterpreterStateMachine` (LED mirroring and the event
callback are external effects and are not part of the claims modelled here). -/
structure InterpState where
  session_id : Option String
  statuses : StepID → StepStatus
  lastConfident : StepID → Option Int
  uncertaintyEvents : List UncertaintyEvent
  activeStep : Option StepID

/-- Interpreter state right after `__init__` / before any session: statuses at
their dataclass defaults and no session id. -/
def interpInit : InterpState where
  session_id := none
  statuses := fun step => { step_id := step }
  lastConfident := fun _ => none
  uncertaintyEvents := []
  activeStep := none

/-- Whether an optional signal takes the `if signal and signal.is_confident`
branch of `_update_step`. -/
def signalConfident : Option StepSignal → Bool
  | some sig => sig.is_confident
  | none => false

/-- The `UncertaintyEvent` appended by `_update_step`'s low-confidence branch
(`record_uncertainty(LOW_CONFIDENCE, ts, details=f"step={status.step_id.value}")`). -/
def lowConfidenceEvent (step : StepID) (timestamp_ms : Int) : UncertaintyEvent :=
  { timestamp_ms := timestamp_ms
    reason := .LOW_CONFIDENCE
    details := some ("step=" ++ step.value) }

/-- The `if signal and signal.is_confident:` branch of
`InterpreterStateMachine._update_step` (entered with `status.state`
not `COMPLETED`). -/
def updateStepConfident (thr : StepThreshold) (status : StepStatus) (lastConf : Option Int)
    (sig : StepSignal) : StepStatus × Option Int × List UncertaintyEvent :=
  let status := if sig.orientation ≠ .NONE then
    { status with orientation := sig.orientation } else status
  let status := if status.state = .NOT_STARTED ∨ status.state = .UNCERTAIN then
    { status with state := .IN_PROGRESS } else status
  let current_ts := sig.timestamp_ms
  let status := match lastConf with
    | some last_ts =>
      let delta := max 0 (current_ts - last_ts)
      if delta > 0 then { status with accumulated_ms := status.accumulated_ms + delta }
      else status
    | none => status
  if status.accumulated_ms ≥ thr.duration_ms ∧ status.state ≠ .COMPLETED then
    ({ status with state := .COMPLETED, completed_ts := some current_ts }, none, [])
  else
    (status, some current_ts, [])

/-- The `else:` (no confident signal) branch of `_update_step`. -/
def updateStepUnconfident (status : StepStatus) (timestamp_ms : Int) :
    StepStatus × Option Int × List UncertaintyEvent :=
  if status.state = .IN_PROGRESS then
    ({ status with state := .UNCERTAIN, uncertainty_count := status.uncertainty_count + 1 },
     none, [lowConfidenceEvent status.step_id timestamp_ms])
  else
    (status, none, [])

/-- `InterpreterStateMachine._update_step`.  Returns the updated status, the
updated `last_confident_ts` entry for this step, and the uncertainty events
appended during the call. -/
def updateStep (thr : StepThreshold) (status : StepStatus) (lastConf : Option Int)
    (signal : Option StepSignal) (timestamp_ms : Int) :
    StepStatus × Option Int × List UncertaintyEvent :=
  if status.state = .COMPLETED then
    (status, lastConf, [])
  else
    match signal with
    | some sig =>
      if sig.is_confident then updateStepConfident thr status lastConf sig
      else updateStepUnconfident status timestamp_ms
    | none => updateStepUnconfident status timestamp_ms

/-- `_select_active_signal`: among the confident signals, the first one of
maximal confidence (Python's `max(confident, key=...)` keeps the first
maximum). -/
def selectActiveSignal (signals : List StepSignal) : Option StepSignal :=
  match signals.filter (fun sig => sig.is_confident) with
  | [] => none
  | first :: rest =>
    some (rest.foldl (fun best sig => if sig.confidence > best.confidence then sig else best) first)

/-- `signal_map = {sig.step_id: sig for sig in signal_list}`: later entries
overwrite earlier ones, so lookup takes the last signal for a step. -/
def signalMapGet (signals : List StepSignal) (step : StepID) : Option StepSignal :=
  signals.reverse.find? (fun sig => sig.step_id = step)

/-- `InterpreterStateMachine.process_signals`.  The Python loop iterates
`_step_order` sequentially, but each iteration reads and writes only its own
step's dict entries; the shared uncertainty-event list receives the per-step
events in step order, which the `List.flatMap` below reproduces. -/
def processSignals (cfg : Config) (st : InterpState)
    (signals : List StepSignal) (timestamp_ms : Int) : InterpState :=
  if pyTruthyStr st.session_id then
    let results := fun step =>
      updateStep (cfg.steps step) (st.statuses step) (st.lastConfident step)
        (signalMapGet signals step) timestamp_ms
    { st with
      activeStep := (selectActiveSignal signals).map (·.step_id)
      statuses := fun step => (results step).1
      lastConfident := fun step => (results step).2.1
      uncertaintyEvents :=
        st.uncertaintyEvents ++ stepOrder.flatMap (fun step => (results step).2.2) }
  else st

/-- `InterpreterStateMachine.start_session`. -/
def interpStartSession (st : InterpState) (session_id : String) : InterpState :=
  { st with
    session_id := some session_id
    uncertaintyEvents := []
    statuses := fun step => { step_id := step }
    lastConfident := fun _ => none
    activeStep := none }

/-- `InterpreterStateMachine.end_session` (LED publishing omitted; step
statuses and uncertainty events are kept for `snapshot()`). -/
def interpEndSession (st : InterpState) : InterpState :=
  if pyTruthyStr st.session_id then
    { st with activeStep := none, session_id := none }
  else st

/-- One interpreter operation, for stating invariants over arbitrary call
sequences. -/
inductive InterpOp
  | start (session_id : String) (timestamp_ms : Int)
  | frame (signals : List StepSignal) (timestamp_ms : Int)
  | finish (timestamp_ms : Int)

def InterpOp.isStart : InterpOp → Bool
  | .start _ _ => true
  | _ => false

def interpStep (cfg : Config) (st : InterpState) : InterpOp → InterpState
  | .start sid _ => interpStartSession st sid
  | .frame sigs ts => processSignals cfg st sigs ts
  | .finish _ => interpEndSession st

def interpRun (cfg : Config) (st : InterpState) (ops : List InterpOp) : InterpState :=
  ops.foldl (interpStep cfg) st

/-- The per-step invariant of §8 of the spec: non-negative dwell,
`COMPLETED ⇒ accumulated ≥ duration ∧ completed_ts ≠ null`, and
`completed_ts = null` outside `COMPLETED`. -/
def StepInv (thr : StepThreshold) (s : StepStatus) : Prop :=
  0 ≤ s.accumulated_ms ∧
  (s.state = .COMPLETED → thr.duration_ms ≤ s.accumulated_ms ∧ s.completed_ts ≠ none) ∧
  (s.state ≠ .COMPLETED → s.completed_ts = none)

def InterpInv (cfg : Config) (st : InterpState) : Prop :=
  ∀ step : StepID, StepInv (cfg.steps step) (st.statuses step)

instance (thr : StepThreshold) (s : StepStatus) : Decidable (StepInv thr s) := by
  unfold StepInv; infer_instance

instance (cfg : Config) (st : InterpState) : Decidable (InterpInv cfg st) := by
  unfold InterpInv; infer_instance

/-! ## Session gate (`interpreter/session_manager.py`) -/

inductive SessionEventType
  | STARTED | ENDED
  deriving DecidableEq, Repr

/-- A `SessionEvent`; the `details` dict is modelled by the fields it can
carry (`roi` on start, `reason`/`duration_ms` on end). -/
structure SessionEvent where
  event_type : SessionEventType
  session_id : String
  timestamp_ms : Int
  config_version : String
  roi : Option ROI := none
  reason : Option String := none
  duration_ms : Option Int := none
  deriving DecidableEq, Repr

/-- State owned by `SessionManager`. -/
structure SMState where
  window : List Bool
  session_active : Bool
  current_session_id : Option String
  session_start_ts : Option Int
  last_active_ts : Option Int
  deriving DecidableEq, Repr

def smInit : SMState :=
  { window := [], session_active := false, current_session_id := none,
    session_start_ts := none, last_active_ts := none }

/-- `deque(maxlen=W).append`: append on the right, drop from the left when the
window exceeds `W` entries. -/
def pushWindow (W : Nat) (w : List Bool) (b : Bool) : List Bool :=
  let w' := w ++ [b]
  w'.drop (w'.length - W)

/-- `SessionManager._extract_int`: `metadata.get(key, default)` followed by an
`isinstance(value, int)` check (which Python bools pass). -/
def extractInt (packet : FramePacket) (key : String) (default : Int) : Int :=
  match mdGet packet.metadata key with
  | some v => v.asPyInt.getD default
  | none => default

/-- `SessionManager._meets_start_conditions`. -/
def meetsStartConditions (cfg : Config) (packet : FramePacket) : Bool :=
  let hands_total := extractInt packet "hand_count" 0
  if hands_total < cfg.session.min_hands then false
  else
    let hands_in_roi := extractInt packet "hands_in_roi" hands_total
    if hands_in_roi < cfg.session.min_hands then false
    else if cfg.session.require_motion then
      if packet.motion.mean_velocity < cfg.session.motion_threshold then false
      else if packet.motion.relative_motion < cfg.session.relative_motion_threshold then false
      else true
    else true

/-- The event emitted by `_start_session`. -/
def startedEvent (cfg : Config) (uuid : String) (ts : Int) : SessionEvent :=
  { event_type := .STARTED, session_id := uuid, timestamp_ms := ts,
    config_version := cfg.config_version, roi := some cfg.roi }

/-- The event emitted by `_end_session`. -/
def endedEvent (cfg : Config) (sid : String) (ts : Int) (reason : String)
    (duration : Int) : SessionEvent :=
  { event_type := .ENDED, session_id := sid, timestamp_ms := ts,
    config_version := cfg.config_version, reason := some reason,
    duration_ms := some duration }

/-- `SessionManager._start_session`; `uuid` stands for the fresh `str(uuid4())`. -/
def smStartSession (cfg : Config) (uuid : String) (st : SMState) (timestamp_ms : Int) :
    SMState × List SessionEvent :=
  ({ st with
      session_active := true
      current_session_id := some uuid
      session_start_ts := some timestamp_ms
      last_active_ts := some timestamp_ms },
   [startedEvent cfg uuid timestamp_ms])

/-- `SessionManager._end_session`. -/
def smEndSession (cfg : Config) (st : SMState) (timestamp_ms : Int) (reason : String) :
    SMState × List SessionEvent :=
  match st.session_active, st.current_session_id, st.session_start_ts with
  | true, some sid, some start_ts =>
    ({ window := [], session_active := false, current_session_id := none,
       session_start_ts := none, last_active_ts := none },
     [endedEvent cfg sid timestamp_ms reason (max 0 (timestamp_ms - start_ts))])
  | _, _, _ => (st, [])

/-- `SessionManager.process_frame`; `uuid` is the id minted if a session
starts on this frame. -/
def smProcessFrame (cfg : Config) (uuid : String) (st : SMState) (packet : FramePacket) :
    SMState × List SessionEvent :=
  let gate_ok := meetsStartConditions cfg packet
  let st := { st with window := pushWindow cfg.session.start_window_frames st.window gate_ok }
  if ¬ st.session_active then
    if st.window.length = cfg.session.start_window_frames ∧ st.window.all id then
      smStartSession cfg uuid st packet.timestamp_ms
    else (st, [])
  else
    if gate_ok then ({ st with last_active_ts := some packet.timestamp_ms }, [])
    else
      match st.last_active_ts with
      | some last =>
        if packet.timestamp_ms - last ≥ cfg.session.stop_timeout_ms then
          smEndSession cfg st packet.timestamp_ms "timeout"
        else (st, [])
      | none => (st, [])

/-- `SessionManager.reset` (`self._last_active_ts or 0` is `getD 0`: both
`None` and `0` give `0`). -/
def smReset (cfg : Config) (st : SMState) : SMState × List SessionEvent :=
  if st.session_active then
    let (st', evs) := smEndSession cfg st (st.last_active_ts.getD 0) "reset"
    ({ st' with window := [] }, evs)
  else ({ st with window := [] }, [])

/-- Per-frame event lists produced by running `process_frame` over a packet
stream; `u i` supplies the uuid minted if a session starts on frame `i₀ + i`. -/
def smRunEvents (cfg : Config) (u : Nat → String) (i₀ : Nat) (st : SMState) :
    List FramePacket → List (List SessionEvent)
  | [] => []
  | p :: ps =>
    let r := smProcessFrame cfg (u i₀) st p
    r.2 :: smRunEvents cfg u (i₀ + 1) r.1 ps

/-! ### Specification-side window and timeout conditions -/

/-- `gate_ok` of every packet of a stream. -/
def gateList (cfg : Config) (ps : List FramePacket) : List Bool :=
  ps.map (meetsStartConditions cfg)

/-- The last (at most) `W` entries of a list: the contents of a
`deque(maxlen=W)` after pushing the whole list. -/
def lastN (W : Nat) (l : List Bool) : List Bool := l.drop (l.length - W)

/-- `len(window) == maxlen and all(window)`. -/
def fullOk (W : Nat) (w : List Bool) : Bool := (w.length = W : Bool) && w.all id

/-- The claim's start condition at frame `i`: the stream is at least `W`
frames in, and the last `W` gate evaluations (frames `i+1-W … i`) are all
`gate_ok`. -/
def windowOk (gates : List Bool) (W i : Nat) : Prop :=
  W ≤ i + 1 ∧ ∀ j ∈ List.range (i + 1), i + 1 - W ≤ j → gates.getD j false = true

instance (gates : List Bool) (W i : Nat) : Decidable (windowOk gates W i) := by
  unfold windowOk; infer_instance

/-- An idle gate state whose window holds `w`. -/
def mkIdle (w : List Bool) : SMState :=
  { window := w, session_active := false, current_session_id := none,
    session_start_ts := none, last_active_ts := none }

/-- An active gate state. -/
def mkActive (w : List Bool) (sid : String) (S L : Int) : SMState :=
  { window := w, session_active := true, current_session_id := some sid,
    session_start_ts := some S, last_active_ts := some L }

/-- The running `last_active_ts` before frame `i` of a stream processed from
an active state whose `last_active_ts` is `L`: the timestamp of the last
`gate_ok` packet among the first `i`, else `L`. -/
def lastActiveAt (cfg : Config) (L : Int) : List FramePacket → Nat → Int
  | _, 0 => L
  | [], _ + 1 => L
  | p :: ps, k + 1 =>
    lastActiveAt cfg (if meetsStartConditions cfg p then p.timestamp_ms else L) ps k

/-- The claim's end condition at frame `i`: the frame is not `gate_ok` and
its timestamp is at least `stop_timeout_ms` past the running
`last_active_ts`. -/
def endCond (cfg : Config) (ps : List FramePacket) (L : Int) (i : Nat) : Prop :=
  (gateList cfg ps).getD i false = false ∧
  cfg.session.stop_timeout_ms ≤
    (ps.map FramePacket.timestamp_ms).getD i 0 - lastActiveAt cfg L ps i

instance (cfg : Config) (ps : List FramePacket) (L : Int) (i : Nat) :
    Decidable (endCond cfg ps L i) := by
  unfold endCond; infer_instance

/-! ## ESP8266 LED client (`feedback/esp8266.py`)

The HTTP transport is external; a `publish` call's transport outcome is an
explicit `Except String Unit` input (`error reason` standing for the caught
`requests.RequestException`).  Issued HTTP requests are returned so that
"no request is issued" is expressible. -/

structure LedPayload where
  step : Int
  step_id : String
  state : String
  timestamp_ms : Int
  blink_hz : Rat
  deriving DecidableEq, Repr

inductive HttpRequest
  | reset
  | signal (payload : LedPayload)
  deriving DecidableEq, Repr

structure ClientState where
  session_id : Option String
  disabled : Bool
  last_error : Option String
  last_states : List (StepID × LedSignalState)
  deriving DecidableEq, Repr

/-- `Esp8266Client.__init__`: `self._disabled = not config.enabled`. -/
def clientInit (cfg : Esp8266Config) : ClientState :=
  { session_id := none, disabled := ¬ cfg.enabled, last_error := none, last_states := [] }

def lastStatesGet (l : List (StepID × LedSignalState)) (step : StepID) : Option LedSignalState :=
  (l.find? (fun kv => kv.1 = step)).map (·.2)

def lastStatesSet (l : List (StepID × LedSignalState)) (step : StepID) (s : LedSignalState) :
    List (StepID × LedSignalState) :=
  (step, s) :: l.filter (fun kv => kv.1 ≠ step)

def stepNumber : StepID → Int
  | .STEP_2 => 2
  | .STEP_3 => 3
  | .STEP_4 => 4
  | .STEP_5 => 5
  | .STEP_6 => 6
  | .STEP_7 => 7

/-- `Esp8266Client._build_payload`. -/
def buildPayload (cfg : Esp8266Config) (step : StepID) (state : LedSignalState)
    (timestamp_ms : Int) : LedPayload :=
  { step := stepNumber step, step_id := step.value, state := state.value,
    timestamp_ms := timestamp_ms, blink_hz := cfg.blink_hz }

/-- `Esp8266Client._disable`. -/
def clientDisable (st : ClientState) (reason : String) : ClientState :=
  if st.disabled then st
  else { st with disabled := true, last_error := some reason }

/-- `Esp8266Client.publish`.  Returns the new state, the boolean result, and
the HTTP requests issued during the call. -/
def clientPublish (cfg : Esp8266Config) (st : ClientState) (step : StepID)
    (state : LedSignalState) (timestamp_ms : Int) (transport : Except String Unit) :
    ClientState × Bool × List HttpRequest :=
  if ¬ cfg.enabled ∨ st.disabled ∨ ¬ pyTruthyStr st.session_id then
    (st, false, [])
  else if lastStatesGet st.last_states step = some state then
    (st, true, [])
  else
    let payload := buildPayload cfg step state timestamp_ms
    match transport with
    | .ok _ =>
      ({ st with last_states := lastStatesSet st.last_states step state }, true,
       [.signal payload])
    | .error reason =>
      (clientDisable st reason, false, [.signal payload])

/-- `Esp8266Client.start_session` (the `_reset_leds` POST is issued whatever
its own outcome; a reset failure only logs). -/
def clientStartSession (cfg : Esp8266Config) (st : ClientState) (session_id : String) :
    ClientState × List HttpRequest :=
  if ¬ cfg.enabled then (st, [])
  else
    ({ session_id := some session_id, disabled := false, last_error := none,
       last_states := [] },
     [.reset])

/-- `Esp8266Client.end_session`. -/
def clientEndSession (st : ClientState) : ClientState :=
  { st with session_id := none, last_error := none, last_states := [] }

/-! ## Demo replay (`demo/replay.py`) -/

structure StepAnnotation where
  step_id : StepID
  orientation : StepOrientation
  start_ms : Int
  end_ms : Int
  deriving DecidableEq, Repr

/-- A manifest asset (paths are irrelevant to the modelled behaviour; `fps`
is a Python float, modelled as a rational). -/
structure DemoAsset where
  asset_id : String
  fps : Rat
  total_frames : Nat
  annotations : List StepAnnotation
  roi : Option ROI
  deriving DecidableEq, Repr

/-- The pure validation `load_manifest` enforces on a single asset:
positive fps, positive frame count, well-formed annotation windows. -/
def ValidAsset (a : DemoAsset) : Prop :=
  0 < a.fps ∧ 0 < a.total_frames ∧
  ∀ ann ∈ a.annotations, 0 ≤ ann.start_ms ∧ ann.start_ms < ann.end_ms

instance (a : DemoAsset) : Decidable (ValidAsset a) := by
  unfold ValidAsset; infer_instance

/-- Python's built-in `round` to the nearest integer, ties to even. -/
def pyRound (q : Rat) : Int :=
  let f := q.floor
  let r := ratSub q ((f : Int) : Rat)
  if r < Rat.divInt 1 2 then f
  else if r > Rat.divInt 1 2 then f + 1
  else if f % 2 = 0 then f else f + 1

/-- `frame_interval_ms = max(1, int(round(1000.0 / asset.fps)))`. -/
def frameIntervalMs (fps : Rat) : Int :=
  max 1 (pyRound (ratDiv 1000 fps))

/-- `_annotation_for_timestamp`: the first annotation whose half-open window
contains the timestamp. -/
def annotationForTimestamp (annotations : List StepAnnotation) (timestamp_ms : Int) :
    Option StepAnnotation :=
  annotations.find? (fun ann => ann.start_ms ≤ timestamp_ms ∧ timestamp_ms < ann.end_ms)

/-- The packet `DemoReplay.stream_packets` yields for a given `frame_id`. -/
def demoPacket (cfg : Config) (asset : DemoAsset) (frame_id : Nat) : FramePacket :=
  let roi := asset.roi.getD cfg.roi
  let frame_interval_ms := frameIntervalMs asset.fps
  let timestamp_ms := (frame_id : Int) * frame_interval_ms
  let base : Metadata :=
    [("asset_id", .str asset.asset_id), ("demo_mode", .bool true),
     ("timestamp_offset_ms", .int timestamp_ms),
     ("demo_frame_interval_ms", .int frame_interval_ms)]
  let metadata :=
    match annotationForTimestamp asset.annotations timestamp_ms with
    | some ann =>
      base ++ [("demo_step", .str ann.step_id.value),
               ("demo_orientation", .str ann.orientation.value),
               ("demo_step_start_ms", .int ann.start_ms),
               ("demo_step_end_ms", .int ann.end_ms)]
    | none => base
  { frame_id := (frame_id : Int), timestamp_ms := timestamp_ms, roi := roi,
    config_version := cfg.config_version,
    motion := { mean_velocity := 0, relative_motion := 0 },
    metadata := metadata }

/-- `DemoReplay.stream_packets` (the generator, materialised as a list). -/
def streamPackets (cfg : Config) (asset : DemoAsset) : List FramePacket :=
  (List.range asset.total_frames).map (demoPacket cfg asset)

/-! ## Demo signal synthesizer (`cli/_demo_utils.py`) -/

/-- `boost_demo_packet`. -/
def boostDemoPacket (cfg : Config) (packet : FramePacket) : FramePacket :=
  let metadata := mdSetDefault packet.metadata "hand_count" (.int 2)
  let metadata := mdSetDefault metadata "hands_in_roi" (.int 2)
  let threshold_motion := max (Rat.divInt 1 2) (ratMul cfg.session.motion_threshold (Rat.divInt 11 10))
  let threshold_relative :=
    max (Rat.divInt 3 10) (ratMul cfg.session.relative_motion_threshold (Rat.divInt 11 10))
  { packet with
    motion :=
      { mean_velocity := max packet.motion.mean_velocity threshold_motion
        relative_motion := max packet.motion.relative_motion threshold_relative }
    metadata := metadata }

/-- `_parse_orientation` (falls back to `NONE` on anything unparsable). -/
def parseOrientationMeta (v : Option MetaValue) : StepOrientation :=
  match v with
  | some (.str s) => (parseOrientation s).getD .NONE
  | _ => .NONE

/-- `_coerce_int` (Python `isinstance(value, int)`, which bools pass). -/
def coerceInt (v : Option MetaValue) (fallback : Int) : Int :=
  match v with
  | some mv => mv.asPyInt.getD fallback
  | none => fallback

/-- `_coerce_positive_int`. -/
def coercePositiveInt (v : Option MetaValue) (default : Int) : Int :=
  match v with
  | some mv =>
    match mv.asPyInt with
    | some i => if i > 0 then i else default
    | none => default
  | none => default

abbrev SegmentKey := StepID × Int × Int × StepOrientation

/-- `DemoSignalSynthesizer` state: the `_elapsed_ms` dict. -/
abbrev SynthState := List (SegmentKey × Int)

def synthGet (st : SynthState) (k : SegmentKey) : Int :=
  ((st.find? (fun kv => kv.1 = k)).map (·.2)).getD 0

def synthSet (st : SynthState) (k : SegmentKey) (v : Int) : SynthState :=
  (k, v) :: st.filter (fun kv => kv.1 ≠ k)

def demoSignal (step_id : StepID) (orientation : StepOrientation) (timestamp_ms : Int) :
    StepSignal :=
  { step_id := step_id, orientation := orientation, confidence := 1, is_confident := true,
    timestamp_ms := timestamp_ms, source := .DEMO, notes := some "demo_annotation" }

/-- `DemoSignalSynthesizer.generate`. -/
def synthGenerate (st : SynthState) (packet : FramePacket) : SynthState × List StepSignal :=
  match mdGet packet.metadata "demo_step" with
  | some (.str step_value) =>
    match parseStepID step_value with
    | none => (st, [])
    | some step_id =>
      let orientation := parseOrientationMeta (mdGet packet.metadata "demo_orientation")
      let start_ms := coerceInt (mdGet packet.metadata "demo_step_start_ms") packet.timestamp_ms
      let end_ms := coerceInt (mdGet packet.metadata "demo_step_end_ms") start_ms
      let end_ms := if end_ms < start_ms then start_ms else end_ms
      let duration := max 0 (end_ms - start_ms)
      let frame_interval := coercePositiveInt (mdGet packet.metadata "demo_frame_interval_ms") 1
      let segment_key : SegmentKey := (step_id, start_ms, end_ms, orientation)
      let elapsed := synthGet st segment_key
      if duration = 0 then
        let timestamp_ms := if elapsed = 0 then start_ms else start_ms + elapsed
        (synthSet st segment_key (elapsed + frame_interval),
         [demoSignal step_id orientation timestamp_ms])
      else
        let remaining := max 0 (duration - elapsed)
        if remaining = 0 then (st, [])
        else if packet.timestamp_ms + frame_interval ≥ end_ms then
          (synthSet st segment_key duration,
           [demoSignal step_id orientation (start_ms + duration)])
        else
          let timestamp_ms := if elapsed = 0 then start_ms else start_ms + elapsed
          (synthSet st segment_key (elapsed + min frame_interval remaining),
           [demoSignal step_id orientation timestamp_ms])
  | _ => (st, [])

/-! ## Detector fallback on the demo path

`DemoApp._process_packet` falls back to `DetectorRunner.evaluate` when the
synthesizer yields no signal.  Demo replay packets carry no `image` and no
`landmarks`, so `MLStepRecognizer.infer` returns `None` (there is never a
cached `_ml_inference` entry, and `packet.image is None`), the runner's hand
pair cache stays empty (`select_hand_pair` finds no landmarks and no cached
pair), and `MetadataDetector._compute` decides everything from metadata.
The definitions below are `MetadataDetector._compute` /
`MLStepDetector._score_packet` / `MLStepDetector.evaluate` specialised to
image-less, landmark-less packets. -/

/-- `MetadataDetector._orientation_from_metadata`. -/
def orientationFromMetadata (packet : FramePacket) : StepOrientation :=
  match mdGet packet.metadata "demo_orientation" with
  | some (.str s) => (parseOrientation s).getD .NONE
  | _ => .NONE

/-- `MLStepDetector` confidence/orientation/notes for an image-less packet
(`_score_packet` yields `(0.0, NONE, "missing_image")`). -/
def mlDetectorCompute (step : StepID) (packet : FramePacket) :
    Rat × StepOrientation × Option String :=
  if mdTruthy packet.metadata "_disable_demo_hints" then
    (0, .NONE, some "missing_image")
  else
    match mdGet packet.metadata "demo_step" with
    | some (.str hint) =>
      if hint = step.value then (1, orientationFromMetadata packet, none)
      else (0, .NONE, some "missing_image")
    | _ => (0, .NONE, some "missing_image")

/-- `MLStepDetector.evaluate`. -/
def mlDetectorEvaluate (cfg : Config) (step : StepID) (packet : FramePacket) : StepSignal :=
  let r := mlDetectorCompute step packet
  let is_confident := r.1 ≥ (cfg.steps step).confidence_min
  let notes := if ¬ is_confident ∧ r.2.2 = none then some "insufficient_confidence" else r.2.2
  { step_id := step, orientation := r.2.1, confidence := r.1, is_confident := is_confident,
    timestamp_ms := packet.timestamp_ms, source := .MODEL, notes := notes }

/-- `DetectorRunner.evaluate` over `build_default_runner`'s six detectors. -/
def runnerEvaluate (cfg : Config) (packet : FramePacket) : List StepSignal :=
  stepOrder.map (fun step => mlDetectorEvaluate cfg step packet)

/-! ## Demo replay pipeline (`cli/demo.py`)

`DemoApp.run`: prime the gate, stream the asset's packets through
`boost_demo_packet` and `_process_packet`, then `SessionManager.reset()`.
Session events flow synchronously through `_handle_session_event` into the
interpreter.  The record-assembly stage is `SessionLogger._build_record`
(`logging/sessions.py`), invoked with the interpreter's snapshot and
uncertainty events when a session ends; the fields below are the
deterministic payload of that record (`model_version`, signal statistics and
notes are constants or sums over the same deterministic signal stream). -/

structure SessionRecordModel where
  session_id : String
  config_version : String
  start_ts : Int
  end_ts : Int
  roi_rect : ROI
  demo_mode : Bool
  step_statuses : List StepStatus
  uncertainty_events : List UncertaintyEvent
  total_rubbing_ms : Int
  deriving DecidableEq, Repr

/-- Interpreter `snapshot()` in `_step_order` order. -/
def interpSnapshot (st : InterpState) : List StepStatus :=
  stepOrder.map st.statuses

/-- `SessionLogger._build_record` (deterministic fields). -/
def buildRecord (cfg : Config) (sid : String) (start_ts end_ts : Int)
    (statuses : List StepStatus) (events : List UncertaintyEvent) : SessionRecordModel :=
  { session_id := sid, config_version := cfg.config_version,
    start_ts := start_ts, end_ts := end_ts, roi_rect := cfg.roi, demo_mode := true,
    step_statuses := statuses, uncertainty_events := events,
    total_rubbing_ms := (statuses.map (fun s => max 0 s.accumulated_ms)).sum }

/-- Whole demo-application state threaded through a replay run. -/
structure AppState where
  sm : SMState
  interp : InterpState
  synth : SynthState
  start_ts : Option Int
  records : List SessionRecordModel

def appInit : AppState :=
  { sm := smInit, interp := interpInit, synth := [], start_ts := none, records := [] }

/-- `DemoApp._handle_session_event` plus the record assembly at session end. -/
def handleSessionEvent (cfg : Config) (a : AppState) (ev : SessionEvent) : AppState :=
  match ev.event_type with
  | .STARTED =>
    { a with interp := interpStartSession a.interp ev.session_id
             start_ts := some ev.timestamp_ms }
  | .ENDED =>
    let interp := interpEndSession a.interp
    let record := buildRecord cfg ev.session_id (a.start_ts.getD 0) ev.timestamp_ms
      (interpSnapshot interp) interp.uncertaintyEvents
    { a with interp := interp, records := a.records ++ [record] }

def applyEvents (cfg : Config) (a : AppState) (evs : List SessionEvent) : AppState :=
  evs.foldl (handleSessionEvent cfg) a

/-- `DemoApp._prime_session`'s synthetic warmup packets. -/
def primePackets (cfg : Config) : List FramePacket :=
  let W := cfg.session.start_window_frames
  (List.range W).map (fun index =>
    { frame_id := -(W : Int) + index
      timestamp_ms := -((W : Int) - index)
      roi := cfg.roi
      config_version := cfg.config_version
      motion :=
        { mean_velocity := max cfg.session.motion_threshold (Rat.divInt 1 2)
          relative_motion := max cfg.session.relative_motion_threshold (Rat.divInt 3 10) }
      metadata := [("hand_count", .int 2), ("hands_in_roi", .int 2)] })

/-- One priming step: `self._session_manager.process_frame(packet)` (session
events still reach the interpreter through the callback). -/
def demoPrimePacket (cfg : Config) (uuid : String) (a : AppState) (packet : FramePacket) :
    AppState :=
  let r := smProcessFrame cfg uuid a.sm packet
  applyEvents cfg { a with sm := r.1 } r.2

/-- The signal-synthesis half of `DemoApp._process_packet` (everything after
the `if not self._session_manager.session_active: return` guard). -/
def demoSignalsStep (cfg : Config) (a : AppState) (packet : FramePacket) : AppState :=
  if ¬ a.sm.session_active then a
  else
    let g := synthGenerate a.synth packet
    let signals := if g.2.isEmpty then runnerEvaluate cfg packet else g.2
    { a with synth := g.1
             interp := processSignals cfg a.interp signals packet.timestamp_ms }

/-- `DemoApp._process_packet`: feed the frame to the session manager (whose
events reach the interpreter synchronously), then synthesize and process
signals while a session is active. -/
def demoStepPacket (cfg : Config) (uuid : String) (a : AppState) (packet : FramePacket) :
    AppState :=
  demoSignalsStep cfg (demoPrimePacket cfg uuid a packet) packet

/-- Index-threaded fold of a per-packet step over a packet list; `u i`
supplies the uuid minted if a session starts on overall frame `i`. -/
def runFrames (step : Config → String → AppState → FramePacket → AppState)
    (cfg : Config) (u : Nat → String) (i₀ : Nat) (a : AppState) :
    List FramePacket → AppState
  | [] => a
  | p :: ps => runFrames step cfg u (i₀ + 1) (step cfg (u i₀) a p) ps

/-- `DemoApp.run` up to (and including) the final `SessionManager.reset()`:
the whole deterministic replay pipeline, parametrised by the uuid supplier
`u` (the only non-deterministic input, `str(uuid4())`). -/
def demoRun (cfg : Config) (asset : DemoAsset) (u : Nat → String) : AppState :=
  let a := runFrames demoPrimePacket cfg u 0 appInit (primePackets cfg)
  let a := runFrames demoStepPacket cfg u cfg.session.start_window_frames a
    ((streamPackets cfg asset).map (boostDemoPacket cfg))
  let r := smReset cfg a.sm
  applyEvents cfg { a with sm := r.1 } r.2

/-! ## Replay verification (`cli/demo.py`, `DemoApp._verify_asset`) -/

/-- `annotation_durations`: per-step sum of `end_ms - start_ms` (unclamped). -/
def annotationDuration (asset : DemoAsset) (step : StepID) : Int :=
  ((asset.annotations.filter (fun ann => ann.step_id = step)).map
    (fun ann => ann.end_ms - ann.start_ms)).sum

/-- Whether a step appears in the asset's annotations. -/
def isAnnotated (asset : DemoAsset) (step : StepID) : Bool :=
  asset.annotations.any (fun ann => ann.step_id = step)

/-- `last_orientation[step]`: orientation of the step's last annotation. -/
def lastOrientation (asset : DemoAsset) (step : StepID) : Option StepOrientation :=
  ((asset.annotations.filter (fun ann => ann.step_id = step)).map (·.orientation)).getLast?

/-- `DemoApp._verify_asset`, as the predicate "the error list is empty".
The interpreter snapshot is total here where Python uses `snapshot.get`;
before any session starts Python's snapshot is empty and every lookup yields
`None`, which coincides with the all-`NOT_STARTED` default statuses this
model carries (`did_complete` is false either way). -/
def verifyAsset (cfg : Config) (asset : DemoAsset) (snapshot : StepID → StepStatus) : Bool :=
  stepOrder.all (fun step =>
    let did_complete : Bool := (snapshot step).state = .COMPLETED
    if isAnnotated asset step then
      let required_ms := (cfg.steps step).duration_ms
      let should_complete : Bool := annotationDuration asset step ≥ required_ms
      (should_complete == did_complete) &&
        (if did_complete then
          match lastOrientation asset step with
          | some o => if o ≠ .NONE then (snapshot step).orientation = o else true
          | none => true
        else true)
    else !did_complete)

/-! ### Session-id erasure (specification side, for the determinism claim)

The only non-deterministic input of a demo replay is the stream of
`uuid4()` strings.  `eraseApp` canonicalises every stored session id
(preserving Python truthiness, i.e. whether the string is empty), which lets
two runs that differ only in their uuid supplier be compared. -/

def eraseSid : Option String → Option String
  | none => none
  | some s => some (if s = "" then "" else "#")

def eraseSidStr (s : String) : String := if s = "" then "" else "#"

def eraseEvent (e : SessionEvent) : SessionEvent :=
  { e with session_id := eraseSidStr e.session_id }

def eraseSM (st : SMState) : SMState :=
  { st with current_session_id := eraseSid st.current_session_id }

def eraseInterp (st : InterpState) : InterpState :=
  { st with session_id := eraseSid st.session_id }

def eraseRecord (r : SessionRecordModel) : SessionRecordModel :=
  { r with session_id := eraseSidStr r.session_id }

/-- Drop the three fields the claim allows to differ. -/
def stripRecord (r : SessionRecordModel) : SessionRecordModel :=
  { r with session_id := "", start_ts := 0, end_ts := 0 }

def eraseApp (a : AppState) : AppState :=
  { sm := eraseSM a.sm, interp := eraseInterp a.interp, synth := a.synth,
    start_ts := a.start_ts, records := a.records.map eraseRecord }

/-! ## Concrete fixtures (used to evaluate the theorems on concrete runs) -/

def wcfg : Config where
  config_version := "v1"
  roi := ⟨0, 0, 10, 10⟩
  session :=
    { motion_threshold := Rat.divInt 1 10, relative_motion_threshold := Rat.divInt 1 10,
      start_window_frames := 2, stop_timeout_ms := 500, min_hands := 2,
      require_motion := true }
  steps := fun _ =>
    { duration_ms := 100, confidence_min := Rat.divInt 1 2, orientation_hint := none }
  esp8266 := { enabled := true, host := some "http://led.local" }

def wsig (step : StepID) (ts : Int) : StepSignal :=
  { step_id := step, orientation := .NONE, confidence := 1, is_confident := true,
    timestamp_ms := ts, source := .DEMO, notes := none }

def wthr : StepThreshold :=
  { duration_ms := 100, confidence_min := Rat.divInt 1 2, orientation_hint := none }

def wstatus : StepStatus := { step_id := .STEP_2 }

def wstatusC : StepStatus :=
  { step_id := .STEP_2, orientation := .NONE, state := .COMPLETED,
    accumulated_ms := 100, completed_ts := some 100, uncertainty_count := 0 }

/-- An interpreter state mid-session with `STEP_3` in progress. -/
def wst : InterpState where
  session_id := some "s"
  statuses := fun s =>
    if s = .STEP_3 then
      { step_id := .STEP_3, orientation := .NONE, state := .IN_PROGRESS,
        accumulated_ms := 50, completed_ts := none, uncertainty_count := 0 }
    else { step_id := s }
  lastConfident := fun s => if s = .STEP_3 then some 100 else none
  uncertaintyEvents := []
  activeStep := some .STEP_3

def wops : List InterpOp :=
  [.start "s" 0, .frame [wsig .STEP_2 0] 0, .frame [wsig .STEP_2 100] 100]

def wrest : List InterpOp := [.frame [] 200, .finish 300]

def wpacket (ts : Int) (md : Metadata) : FramePacket :=
  { frame_id := 0, timestamp_ms := ts, roi := ⟨0, 0, 10, 10⟩, config_version := "v1",
    motion := { mean_velocity := 1, relative_motion := 1 }, metadata := md }

/-- A valid asset whose fps exceeds 2000, so `round(1000/fps) = 0`. -/
def c9asset : DemoAsset :=
  { asset_id := "a", fps := 2001, total_frames := 2, annotations := [], roi := none }

def c4packets : List FramePacket :=
  [wpacket 0 [],
   wpacket 100 [("hand_count", .int 2), ("hands_in_roi", .int 2)],
   wpacket 200 [("hand_count", .int 2), ("hands_in_roi", .int 2)]]

def c5packets : List FramePacket :=
  [wpacket 200 [("hand_count", .int 2), ("hands_in_roi", .int 2)], wpacket 1000 []]

/-- Config for the replay-verification scenario: a one-frame gate window and
3-second step thresholds. -/
def c7cfg : Config where
  config_version := "v1"
  roi := ⟨0, 0, 10, 10⟩
  session :=
    { motion_threshold := Rat.divInt 1 10, relative_motion_threshold := Rat.divInt 1 10,
      start_window_frames := 1, stop_timeout_ms := 10000, min_hands := 2,
      require_motion := true }
  steps := fun _ =>
    { duration_ms := 3000, confidence_min := Rat.divInt 4 5, orientation_hint := none }
  esp8266 := { enabled := false }

/-- An asset whose step 3 is annotated in two segments with different
orientations; the step completes during the first segment, so its recorded
orientation differs from the last annotated one. -/
def c7asset : DemoAsset where
  asset_id := "a"
  fps := 1
  total_frames := 6
  annotations :=
    [⟨.STEP_3, .RIGHT_OVER_LEFT, 0, 4000⟩, ⟨.STEP_3, .LEFT_OVER_RIGHT, 4000, 5000⟩]
  roi := none

def wecfg : Esp8266Config := { enabled := true, host := some "http://led.local" }

def wclient : ClientState :=
  { session_id := some "s", disabled := false, last_error := none, last_states := [] }

/-- `wclient` right after a failed publish with reason `"boom"`. -/
def wclientD : ClientState :=
  { session_id := some "s", disabled := true, last_error := some "boom", last_states := [] }

/-! # Theorems -/

/-! ## The rational helpers agree with ordinary field arithmetic -/

theorem ratMul_eq (a b : Rat) : ratMul a b = a * b := by
  rw [ratMul, Rat.mul_def, Rat.normalize_eq_mkRat, ← Rat.divInt_ofNat]
  push_cast
  ring_nf

theorem ratSub_eq (a b : Rat) : ratSub a b = a - b := by
  rw [ratSub, Rat.sub_def', ← Rat.divInt_ofNat]
  push_cast
  ring_nf

theorem ratDiv_eq (a b : Rat) : ratDiv a b = a / b := by
  rw [ratDiv, Rat.div_def']

/-! ## Shared lemmas about `_update_step` and `process_signals` -/

theorem stepDetails_injective :
    ∀ s t : StepID, "step=" ++ s.value = "step=" ++ t.value → s = t := by decide

theorem lowConfidenceEvent_inj {s t : StepID} {ts : Int}
    (h : lowConfidenceEvent s ts = lowConfidenceEvent t ts) : s = t := by
  apply stepDetails_injective
  have := congrArg UncertaintyEvent.details h
  simpa [lowConfidenceEvent] using this

theorem updateStep_completed_frozen (thr : StepThreshold) (status : StepStatus)
    (lastConf : Option Int) (signal : Option StepSignal) (ts : Int)
    (h : status.state = .COMPLETED) :
    updateStep thr status lastConf signal ts = (status, lastConf, []) := by
  simp [updateStep, h]

/-- The events appended by one `_update_step` call are `[]` or the single
low-confidence event for this step. -/
theorem updateStep_events_shape (thr : StepThreshold) (status : StepStatus)
    (lastConf : Option Int) (signal : Option StepSignal) (ts : Int) :
    (updateStep thr status lastConf signal ts).2.2 = [] ∨
    (updateStep thr status lastConf signal ts).2.2 =
      [lowConfidenceEvent status.step_id ts] := by
  have hunconf : (updateStepUnconfident status ts).2.2 = [] ∨
      (updateStepUnconfident status ts).2.2 = [lowConfidenceEvent status.step_id ts] := by
    rw [updateStepUnconfident]
    split_ifs
    · right; rfl
    · left; rfl
  rcases signal with _ | sig
  · rw [updateStep]
    split_ifs
    · left; rfl
    · exact hunconf
  · rw [updateStep]
    split_ifs with h1 h2
    · left; rfl
    · rcases lastConf with _ | l <;>
        · simp only [updateStepConfident]
          split_ifs <;> simp
    · exact hunconf

theorem ite_status_add_max (s : StepStatus) (d : Int) :
    (if max 0 d > 0 then { s with accumulated_ms := s.accumulated_ms + max 0 d } else s)
      = { s with accumulated_ms := s.accumulated_ms + max 0 d } := by
  rcases s with ⟨id0, or0, stt0, acc0, cts0, uc0⟩
  split_ifs with h
  · rfl
  · have h0 : max 0 d = 0 := le_antisymm (not_lt.mp h) (le_max_left _ _)
    simp [h0]

/-- Closed form of the confident branch of `_update_step`. -/
theorem updateStepConfident_eq (thr : StepThreshold) (status : StepStatus)
    (lastConf : Option Int) (sig : StepSignal) (hnc : status.state ≠ .COMPLETED) :
    updateStepConfident thr status lastConf sig =
      (let orient := if sig.orientation ≠ .NONE then sig.orientation else status.orientation
       let acc := status.accumulated_ms +
         (match lastConf with
          | some l => max 0 (sig.timestamp_ms - l)
          | none => 0)
       if thr.duration_ms ≤ acc then
         ({ status with
            orientation := orient
            state := .COMPLETED
            accumulated_ms := acc
            completed_ts := some sig.timestamp_ms }, none, [])
       else
         ({ status with
            orientation := orient
            state := .IN_PROGRESS
            accumulated_ms := acc }, some sig.timestamp_ms, [])) := by
  rcases status with ⟨id0, or0, stt0, acc0, cts0, uc0⟩
  rcases lastConf with _ | l
  · cases stt0
    case COMPLETED => exact absurd rfl hnc
    all_goals
      by_cases ho : sig.orientation = .NONE <;>
        simp [updateStepConfident, ho, ge_iff_le] <;> split_ifs <;> simp_all
  · cases stt0
    case COMPLETED => exact absurd rfl hnc
    all_goals
      by_cases ho : sig.orientation = .NONE <;>
        simp [updateStepConfident, ho, ge_iff_le, ite_status_add_max] <;>
        split_ifs <;> simp_all <;> omega

/-- `_update_step` reduces to the low-confidence branch whenever the frame
carries no confident signal for the step. -/
theorem updateStep_unconfident_eq (thr : StepThreshold) (status : StepStatus)
    (lastConf : Option Int) (signal : Option StepSignal) (ts : Int)
    (hnc : status.state ≠ .COMPLETED) (hsig : signalConfident signal = false) :
    updateStep thr status lastConf signal ts = updateStepUnconfident status ts := by
  rcases signal with _ | sig
  · rw [updateStep, if_neg hnc]
  · rw [updateStep, if_neg hnc]
    simp only [signalConfident] at hsig
    rw [if_neg (by simp [hsig])]

theorem updateStepUnconfident_lastConf (status : StepStatus) (ts : Int) :
    (updateStepUnconfident status ts).2.1 = none := by
  rw [updateStepUnconfident]
  split_ifs <;> rfl

theorem processSignals_statuses (cfg : Config) (st : InterpState)
    (sigs : List StepSignal) (ts : Int) (h : pyTruthyStr st.session_id = true)
    (step : StepID) :
    (processSignals cfg st sigs ts).statuses step =
      (updateStep (cfg.steps step) (st.statuses step) (st.lastConfident step)
        (signalMapGet sigs step) ts).1 := by
  simp [processSignals, h]

theorem processSignals_lastConfident (cfg : Config) (st : InterpState)
    (sigs : List StepSignal) (ts : Int) (h : pyTruthyStr st.session_id = true)
    (step : StepID) :
    (processSignals cfg st sigs ts).lastConfident step =
      (updateStep (cfg.steps step) (st.statuses step) (st.lastConfident step)
        (signalMapGet sigs step) ts).2.1 := by
  simp [processSignals, h]

theorem processSignals_events (cfg : Config) (st : InterpState)
    (sigs : List StepSignal) (ts : Int) (h : pyTruthyStr st.session_id = true) :
    (processSignals cfg st sigs ts).uncertaintyEvents =
      st.uncertaintyEvents ++ stepOrder.flatMap (fun step =>
        (updateStep (cfg.steps step) (st.statuses step) (st.lastConfident step)
          (signalMapGet sigs step) ts).2.2) := by
  simp [processSignals, h]

theorem count_flatMap_stepOrder (f : StepID → List UncertaintyEvent)
    (e : UncertaintyEvent) (step : StepID)
    (hother : ∀ s, s ≠ step → (f s).count e = 0) :
    (stepOrder.flatMap f).count e = (f step).count e := by
  cases step <;>
    simp only [stepOrder, List.flatMap_cons, List.flatMap_nil, List.count_append,
      List.append_nil, List.count_nil]
  case STEP_2 =>
    rw [hother .STEP_3 (by decide), hother .STEP_4 (by decide), hother .STEP_5 (by decide),
      hother .STEP_6 (by decide), hother .STEP_7 (by decide)]
    omega
  case STEP_3 =>
    rw [hother .STEP_2 (by decide), hother .STEP_4 (by decide), hother .STEP_5 (by decide),
      hother .STEP_6 (by decide), hother .STEP_7 (by decide)]
    omega
  case STEP_4 =>
    rw [hother .STEP_2 (by decide), hother .STEP_3 (by decide), hother .STEP_5 (by decide),
      hother .STEP_6 (by decide), hother .STEP_7 (by decide)]
    omega
  case STEP_5 =>
    rw [hother .STEP_2 (by decide), hother .STEP_3 (by decide), hother .STEP_4 (by decide),
      hother .STEP_6 (by decide), hother .STEP_7 (by decide)]
    omega
  case STEP_6 =>
    rw [hother .STEP_2 (by decide), hother .STEP_3 (by decide), hother .STEP_4 (by decide),
      hother .STEP_5 (by decide), hother .STEP_7 (by decide)]
    omega
  case STEP_7 =>
    rw [hother .STEP_2 (by decide), hother .STEP_3 (by decide), hother .STEP_4 (by decide),
      hother .STEP_5 (by decide), hother .STEP_6 (by decide)]
    omega

/-! ## C1: dwell accumulation and completion on a confident signal -/

/-- **C1.** In `_update_step`, when a step that is not `COMPLETED` receives a
confident signal with timestamp `t`: `accumulated_ms` grows by exactly
`max(0, t − last_confident_ts)` when `last_confident_ts` is set and is
unchanged otherwise; the step ends up `COMPLETED` exactly when the resulting
`accumulated_ms` is `≥ duration_ms` (`≥`, not `>`), in which case
`completed_ts = t` and `last_confident_ts` is cleared; otherwise
`last_confident_ts` becomes `t`. -/
theorem update_step_confident_dwell
    (thr : StepThreshold) (status st' : StepStatus) (lastConf lc' : Option Int)
    (evs : List UncertaintyEvent) (sig : StepSignal) (ts : Int)
    (hnc : status.state ≠ .COMPLETED) (hconf : sig.is_confident = true)
    (hrun : updateStep thr status lastConf (some sig) ts = (st', lc', evs)) :
    st'.accumulated_ms = status.accumulated_ms +
        (match lastConf with | some l => max 0 (sig.timestamp_ms - l) | none => 0) ∧
    (st'.state = .COMPLETED ↔ thr.duration_ms ≤ st'.accumulated_ms) ∧
    (st'.state = .COMPLETED → st'.completed_ts = some sig.timestamp_ms ∧ lc' = none) ∧
    (st'.state ≠ .COMPLETED → lc' = some sig.timestamp_ms) := by
  rcases lastConf with _ | l <;>
  · rw [updateStep, if_neg hnc, hconf, if_pos rfl,
      updateStepConfident_eq thr status _ sig hnc] at hrun
    simp only at hrun
    split_ifs at hrun with hdur <;>
    · simp only [Prod.mk.injEq] at hrun
      obtain ⟨h1, h2, h3⟩ := hrun
      subst h1; subst h2
      refine ⟨rfl, ?_, ?_, ?_⟩ <;> simp [hdur] <;> omega

theorem update_step_confident_dwell_witness :
    wstatus.state ≠ .COMPLETED ∧ (wsig .STEP_2 100).is_confident = true ∧
    (wstatusC.accumulated_ms = wstatus.accumulated_ms +
        (match (some (0 : Int)) with
         | some l => max 0 ((wsig .STEP_2 100).timestamp_ms - l)
         | none => 0) ∧
      (wstatusC.state = .COMPLETED ↔ wthr.duration_ms ≤ wstatusC.accumulated_ms) ∧
      (wstatusC.state = .COMPLETED →
        wstatusC.completed_ts = some (wsig .STEP_2 100).timestamp_ms ∧
          (none : Option Int) = none) ∧
      (wstatusC.state ≠ .COMPLETED → (none : Option Int) = some (wsig .STEP_2 100).timestamp_ms)) :=
  ⟨by decide, rfl,
    update_step_confident_dwell wthr wstatus wstatusC (some 0) none [] (wsig .STEP_2 100) 100
      (by decide) rfl (by decide)⟩

/-! ## C3: the no-confident-signal branch -/

/-- **C3.** During `process_signals`, a step that is not `COMPLETED` and has
no confident signal this frame gets its `last_confident_ts` cleared; if it
was `IN_PROGRESS` it becomes `UNCERTAIN`, its `uncertainty_count` grows by
one and exactly one `LOW_CONFIDENCE` uncertainty event carrying the frame
timestamp is appended; steps in `NOT_STARTED` or `UNCERTAIN` keep their
state and `accumulated_ms`. -/
theorem process_signals_unconfident (cfg : Config) (st : InterpState)
    (sigs : List StepSignal) (ts : Int) (step : StepID)
    (hactive : pyTruthyStr st.session_id = true)
    (hids : ∀ s : StepID, (st.statuses s).step_id = s)
    (hnc : (st.statuses step).state ≠ .COMPLETED)
    (hsig : signalConfident (signalMapGet sigs step) = false) :
    (processSignals cfg st sigs ts).lastConfident step = none ∧
    ((st.statuses step).state = .IN_PROGRESS →
      ((processSignals cfg st sigs ts).statuses step).state = .UNCERTAIN ∧
      ((processSignals cfg st sigs ts).statuses step).uncertainty_count
        = (st.statuses step).uncertainty_count + 1 ∧
      (processSignals cfg st sigs ts).uncertaintyEvents.count (lowConfidenceEvent step ts)
        = st.uncertaintyEvents.count (lowConfidenceEvent step ts) + 1) ∧
    ((st.statuses step).state = .NOT_STARTED ∨ (st.statuses step).state = .UNCERTAIN →
      ((processSignals cfg st sigs ts).statuses step).state = (st.statuses step).state ∧
      ((processSignals cfg st sigs ts).statuses step).accumulated_ms
        = (st.statuses step).accumulated_ms) := by
  have hred : updateStep (cfg.steps step) (st.statuses step) (st.lastConfident step)
      (signalMapGet sigs step) ts = updateStepUnconfident (st.statuses step) ts :=
    updateStep_unconfident_eq _ _ _ _ _ hnc hsig
  refine ⟨?_, ?_, ?_⟩
  · rw [processSignals_lastConfident cfg st sigs ts hactive, hred,
      updateStepUnconfident_lastConf]
  · intro hip
    have hres : updateStepUnconfident (st.statuses step) ts =
        ({ st.statuses step with
            state := .UNCERTAIN
            uncertainty_count := (st.statuses step).uncertainty_count + 1 }, none,
          [lowConfidenceEvent step ts]) := by
      simp [updateStepUnconfident, hip, hids step]
    refine ⟨?_, ?_, ?_⟩
    · rw [processSignals_statuses cfg st sigs ts hactive, hred, hres]
    · rw [processSignals_statuses cfg st sigs ts hactive, hred, hres]
    · rw [processSignals_events cfg st sigs ts hactive, List.count_append]
      have hother : ∀ s, s ≠ step →
          ((fun s => (updateStep (cfg.steps s) (st.statuses s) (st.lastConfident s)
            (signalMapGet sigs s) ts).2.2) s).count (lowConfidenceEvent step ts) = 0 := by
        intro s hs
        rcases updateStep_events_shape (cfg.steps s) (st.statuses s) (st.lastConfident s)
          (signalMapGet sigs s) ts with hsh | hsh
        · simp only [hsh]; rfl
        · simp only [hsh, hids s]
          have hne : lowConfidenceEvent s ts ≠ lowConfidenceEvent step ts :=
            fun h => hs (lowConfidenceEvent_inj h)
          simp [List.count_cons, hne]
      rw [count_flatMap_stepOrder _ _ step hother]
      simp only [hred, hres]
      simp [List.count_cons]
  · intro hns
    have hres : updateStepUnconfident (st.statuses step) ts = (st.statuses step, none, []) := by
      rcases hns with h | h <;> rw [updateStepUnconfident, if_neg (by simp [h])]
    rw [processSignals_statuses cfg st sigs ts hactive, hred, hres]
    exact ⟨rfl, rfl⟩

theorem process_signals_unconfident_witness :
    pyTruthyStr wst.session_id = true ∧
    (∀ s : StepID, (wst.statuses s).step_id = s) ∧
    (wst.statuses .STEP_3).state ≠ .COMPLETED ∧
    signalConfident (signalMapGet [] .STEP_3) = false ∧
    ((processSignals wcfg wst [] 200).lastConfident .STEP_3 = none ∧
      ((wst.statuses .STEP_3).state = .IN_PROGRESS →
        ((processSignals wcfg wst [] 200).statuses .STEP_3).state = .UNCERTAIN ∧
        ((processSignals wcfg wst [] 200).statuses .STEP_3).uncertainty_count
          = (wst.statuses .STEP_3).uncertainty_count + 1 ∧
        (processSignals wcfg wst [] 200).uncertaintyEvents.count (lowConfidenceEvent .STEP_3 200)
          = wst.uncertaintyEvents.count (lowConfidenceEvent .STEP_3 200) + 1) ∧
      ((wst.statuses .STEP_3).state = .NOT_STARTED ∨ (wst.statuses .STEP_3).state = .UNCERTAIN →
        ((processSignals wcfg wst [] 200).statuses .STEP_3).state = (wst.statuses .STEP_3).state ∧
        ((processSignals wcfg wst [] 200).statuses .STEP_3).accumulated_ms
          = (wst.statuses .STEP_3).accumulated_ms)) :=
  ⟨by decide, by decide, by decide, by decide,
    process_signals_unconfident wcfg wst [] 200 .STEP_3 (by decide) (by decide) (by decide)
      (by decide)⟩

/-! ## C2: interpreter invariants and completion freezing -/

theorem updateStep_stepInv (thr : StepThreshold) (status : StepStatus)
    (lastConf : Option Int) (signal : Option StepSignal) (ts : Int)
    (h : StepInv thr status) :
    StepInv thr (updateStep thr status lastConf signal ts).1 := by
  obtain ⟨ha, hb, hc⟩ := h
  have hunconf : StepInv thr (updateStepUnconfident status ts).1 := by
    rw [updateStepUnconfident]
    split_ifs with h2
    · exact ⟨ha, by simp, fun _ => hc (by rw [h2]; simp)⟩
    · exact ⟨ha, hb, hc⟩
  rcases signal with _ | sig
  · rw [updateStep]
    split_ifs with h1
    · exact ⟨ha, hb, hc⟩
    · exact hunconf
  · rw [updateStep]
    split_ifs with h1 h2
    · exact ⟨ha, hb, hc⟩
    · rw [updateStepConfident_eq thr status lastConf sig h1]
      have hd : (0 : Int) ≤
          (match lastConf with | some l => max 0 (sig.timestamp_ms - l) | none => 0) := by
        rcases lastConf with _ | l
        · simp
        · exact le_max_left _ _
      simp only
      split_ifs with hdur <;>
        refine ⟨?_, ?_, ?_⟩ <;> simp_all [hc h1] <;> omega
    · exact hunconf

theorem interpStep_inv (cfg : Config) (st : InterpState) (op : InterpOp)
    (h : InterpInv cfg st) : InterpInv cfg (interpStep cfg st op) := by
  cases op with
  | start sid ts =>
    intro step
    exact ⟨le_refl 0, by simp [interpStep, interpStartSession], by simp [interpStep, interpStartSession]⟩
  | frame sigs ts =>
    intro step
    by_cases ha : pyTruthyStr st.session_id = true
    · rw [show interpStep cfg st (.frame sigs ts) = processSignals cfg st sigs ts from rfl,
        processSignals_statuses cfg st sigs ts ha]
      exact updateStep_stepInv _ _ _ _ _ (h step)
    · have heq : processSignals cfg st sigs ts = st := by
        rw [processSignals, if_neg (by simpa using ha)]
      rw [show interpStep cfg st (.frame sigs ts) = processSignals cfg st sigs ts from rfl, heq]
      exact h step
  | finish ts =>
    intro step
    simp only [interpStep, interpEndSession]
    split_ifs <;> exact h step

theorem interpRun_cons (cfg : Config) (st : InterpState) (op : InterpOp) (ops : List InterpOp) :
    interpRun cfg st (op :: ops) = interpRun cfg (interpStep cfg st op) ops := rfl

theorem interpRun_inv (cfg : Config) (st : InterpState) (ops : List InterpOp)
    (h : InterpInv cfg st) : InterpInv cfg (interpRun cfg st ops) := by
  induction ops generalizing st with
  | nil => exact h
  | cons op rest ih => exact ih _ (interpStep_inv cfg st op h)

theorem interpInit_inv (cfg : Config) : InterpInv cfg interpInit := by
  intro step
  exact ⟨le_refl 0, by simp [interpInit], by simp [interpInit]⟩

theorem interpStep_completed_frozen (cfg : Config) (st : InterpState) (op : InterpOp)
    (step : StepID) (hop : op.isStart = false)
    (h : (st.statuses step).state = .COMPLETED) :
    (interpStep cfg st op).statuses step = st.statuses step := by
  cases op with
  | start sid ts => simp [InterpOp.isStart] at hop
  | frame sigs ts =>
    by_cases ha : pyTruthyStr st.session_id = true
    · rw [show interpStep cfg st (.frame sigs ts) = processSignals cfg st sigs ts from rfl,
        processSignals_statuses cfg st sigs ts ha,
        updateStep_completed_frozen _ _ _ _ _ h]
    · have heq : processSignals cfg st sigs ts = st := by
        rw [processSignals, if_neg (by simpa using ha)]
      rw [show interpStep cfg st (.frame sigs ts) = processSignals cfg st sigs ts from rfl, heq]
  | finish ts =>
    simp only [interpStep, interpEndSession]
    split_ifs <;> rfl

theorem interpRun_completed_frozen (cfg : Config) (st : InterpState)
    (rest : List InterpOp) (step : StepID)
    (hrest : ∀ op ∈ rest, op.isStart = false)
    (h : (st.statuses step).state = .COMPLETED) :
    (interpRun cfg st rest).statuses step = st.statuses step := by
  induction rest generalizing st with
  | nil => rfl
  | cons op ops ih =>
    have h1 := interpStep_completed_frozen cfg st op step (hrest op (by simp)) h
    have h2 : ((interpStep cfg st op).statuses step).state = .COMPLETED := by
      rw [h1]; exact h
    rw [interpRun_cons, ih _ (fun o ho => hrest o (by simp [ho])) h2, h1]

/-- **C2.** After any sequence of interpreter operations from the initial
state: every step satisfies `accumulated_ms ≥ 0`,
`COMPLETED ⇒ accumulated_ms ≥ duration_ms ∧ completed_ts ≠ null`, and
`completed_ts = null` outside `COMPLETED`; and once a step is `COMPLETED`
its whole status (state, accumulated, completed_ts, orientation) is
untouched by any further frames or session ends of the session. -/
theorem interpreter_invariants (cfg : Config) (ops rest : List InterpOp) (step : StepID)
    (hrest : ∀ op ∈ rest, op.isStart = false) :
    InterpInv cfg (interpRun cfg interpInit ops) ∧
    (((interpRun cfg interpInit ops).statuses step).state = .COMPLETED →
      (interpRun cfg (interpRun cfg interpInit ops) rest).statuses step
        = (interpRun cfg interpInit ops).statuses step) :=
  ⟨interpRun_inv cfg interpInit ops (interpInit_inv cfg),
   fun h => interpRun_completed_frozen cfg _ rest step hrest h⟩

theorem interpreter_invariants_witness :
    (∀ op ∈ wrest, op.isStart = false) ∧
    ((interpRun wcfg interpInit wops).statuses .STEP_2).state = .COMPLETED ∧
    InterpInv wcfg (interpRun wcfg interpInit wops) ∧
    (interpRun wcfg (interpRun wcfg interpInit wops) wrest).statuses .STEP_2
      = (interpRun wcfg interpInit wops).statuses .STEP_2 :=
  ⟨by decide, by decide,
   (interpreter_invariants wcfg wops wrest .STEP_2 (by decide)).1,
   (interpreter_invariants wcfg wops wrest .STEP_2 (by decide)).2 (by decide)⟩

/-! ## C10: session-gate metadata fallback -/

theorem extractInt_default_of_noInt (packet : FramePacket) (key : String) (d : Int)
    (h : mdHasInt packet.metadata key = false) :
    extractInt packet key d = d := by
  unfold extractInt
  unfold mdHasInt at h
  cases hm : mdGet packet.metadata key with
  | none => rfl
  | some v =>
    rw [hm] at h
    have h' : v.asPyInt.isSome = false := h
    show v.asPyInt.getD d = d
    cases hv : v.asPyInt with
    | none => rfl
    | some i => rw [hv] at h'; simp at h'

/-- **C10.** When the metadata carries no integer under `hands_in_roi`, the
gate falls back to the `hand_count` value, so `gate_ok` holds exactly when
`hand_count ≥ min_hands` and the motion conditions are met (when required);
a missing or non-integer `hand_count` counts as `0`.  (The evaluation is
total by construction: `meetsStartConditions` is a total function of the
packet, whatever the metadata map contains.) -/
theorem gate_hands_in_roi_fallback (cfg : Config) (packet : FramePacket)
    (hroi : mdHasInt packet.metadata "hands_in_roi" = false) :
    (extractInt packet "hands_in_roi" (extractInt packet "hand_count" 0)
      = extractInt packet "hand_count" 0) ∧
    (meetsStartConditions cfg packet = true ↔
      (cfg.session.min_hands ≤ extractInt packet "hand_count" 0 ∧
        (cfg.session.require_motion = true →
          cfg.session.motion_threshold ≤ packet.motion.mean_velocity ∧
          cfg.session.relative_motion_threshold ≤ packet.motion.relative_motion))) ∧
    (mdHasInt packet.metadata "hand_count" = false →
      extractInt packet "hand_count" 0 = 0) := by
  have hfb := extractInt_default_of_noInt packet "hands_in_roi"
    (extractInt packet "hand_count" 0) hroi
  refine ⟨hfb, ?_, fun h => extractInt_default_of_noInt packet "hand_count" 0 h⟩
  rw [meetsStartConditions, hfb]
  split_ifs with h1 h2 h3 h4 <;>
    simp_all [not_lt] <;>
    first
      | exact absurd h2 (not_lt.mpr h1)
      | (intro h; exact absurd h1 (not_le.mpr h))
      | (intro h; exact ⟨h3, h4⟩)

theorem gate_hands_in_roi_fallback_witness :
    mdHasInt (wpacket 0 [("hand_count", .int 2)]).metadata "hands_in_roi" = false ∧
    ((extractInt (wpacket 0 [("hand_count", .int 2)]) "hands_in_roi"
        (extractInt (wpacket 0 [("hand_count", .int 2)]) "hand_count" 0)
      = extractInt (wpacket 0 [("hand_count", .int 2)]) "hand_count" 0) ∧
     (meetsStartConditions wcfg (wpacket 0 [("hand_count", .int 2)]) = true ↔
       (wcfg.session.min_hands ≤ extractInt (wpacket 0 [("hand_count", .int 2)]) "hand_count" 0 ∧
         (wcfg.session.require_motion = true →
           wcfg.session.motion_threshold ≤ (wpacket 0 [("hand_count", .int 2)]).motion.mean_velocity ∧
           wcfg.session.relative_motion_threshold
             ≤ (wpacket 0 [("hand_count", .int 2)]).motion.relative_motion))) ∧
     (mdHasInt (wpacket 0 [("hand_count", .int 2)]).metadata "hand_count" = false →
       extractInt (wpacket 0 [("hand_count", .int 2)]) "hand_count" 0 = 0)) :=
  ⟨by decide, gate_hands_in_roi_fallback wcfg (wpacket 0 [("hand_count", .int 2)]) (by decide)⟩

/-! ## C9: replay packet stream -/

/-- **C9 counterexample.** For the valid asset with `fps = 2001`,
`round(1000/fps) = 0`, so the claim's formula
`timestamp_ms = frame_id · round(1000/fps)` predicts `0` for the second
packet, but `stream_packets` clamps the frame interval to at least 1 ms and
yields `timestamp_ms = 1`. -/
theorem stream_packets_timestamp_counterexample :
    ValidAsset c9asset ∧
    ratDiv 1000 c9asset.fps = 1000 / c9asset.fps ∧
    ((streamPackets wcfg c9asset).map FramePacket.timestamp_ms).get? 1 = some 1 ∧
    (1 : Int) * pyRound (ratDiv 1000 c9asset.fps) = 0 ∧
    ((streamPackets wcfg c9asset).map FramePacket.timestamp_ms).get? 1
      ≠ some ((1 : Int) * pyRound (ratDiv 1000 c9asset.fps)) :=
  ⟨by decide, ratDiv_eq 1000 c9asset.fps, by decide, by decide, by decide⟩

/-- **C9 (amended).** `stream_packets` yields exactly `total_frames` packets;
the `i`-th has `frame_id = i` and
`timestamp_ms = i · max(1, round(1000/fps))`, and its motion metrics are
zero. -/
theorem stream_packets_shape (cfg : Config) (asset : DemoAsset) :
    (streamPackets cfg asset).length = asset.total_frames ∧
    ∀ i (hi : i < (streamPackets cfg asset).length),
      ((streamPackets cfg asset).get ⟨i, hi⟩).frame_id = (i : Int) ∧
      ((streamPackets cfg asset).get ⟨i, hi⟩).timestamp_ms
        = (i : Int) * max 1 (pyRound (ratDiv 1000 asset.fps)) ∧
      ((streamPackets cfg asset).get ⟨i, hi⟩).motion.mean_velocity = 0 ∧
      ((streamPackets cfg asset).get ⟨i, hi⟩).motion.relative_motion = 0 := by
  refine ⟨by simp [streamPackets], fun i hi => ?_⟩
  have hlen : i < asset.total_frames := by simpa [streamPackets] using hi
  simp [streamPackets, demoPacket, frameIntervalMs]

theorem stream_packets_shape_witness :
    (0 : Nat) < (streamPackets wcfg c9asset).length ∧
    ((streamPackets wcfg c9asset).length = c9asset.total_frames ∧
      ((streamPackets wcfg c9asset).get ⟨0, by decide⟩).frame_id = ((0 : Nat) : Int) ∧
      ((streamPackets wcfg c9asset).get ⟨0, by decide⟩).timestamp_ms
        = ((0 : Nat) : Int) * max 1 (pyRound (ratDiv 1000 c9asset.fps)) ∧
      ((streamPackets wcfg c9asset).get ⟨0, by decide⟩).motion.mean_velocity = 0 ∧
      ((streamPackets wcfg c9asset).get ⟨0, by decide⟩).motion.relative_motion = 0) :=
  ⟨by decide,
   (stream_packets_shape wcfg c9asset).1,
   ((stream_packets_shape wcfg c9asset).2 0 (by decide)).1,
   ((stream_packets_shape wcfg c9asset).2 0 (by decide)).2.1,
   ((stream_packets_shape wcfg c9asset).2 0 (by decide)).2.2.1,
   ((stream_packets_shape wcfg c9asset).2 0 (by decide)).2.2.2⟩

/-! ## C8: LED client error handling -/

/-- **C8.** When a `publish` call hits a transport error, the client records
the reason, disables itself, and returns `False`; while disabled, every
`publish` returns `False` and issues no HTTP request (also after
`end_session`); `start_session` clears the error and the per-step state and
re-enables publishing. -/
theorem esp8266_error_disables (cfg : Esp8266Config) (st st' : ClientState)
    (step : StepID) (state : LedSignalState) (ts : Int) (reason : String)
    (ok : Bool) (reqs : List HttpRequest) (sid : String)
    (hen : cfg.enabled = true) (hdis : st.disabled = false)
    (hsid : pyTruthyStr st.session_id = true)
    (hdup : lastStatesGet st.last_states step ≠ some state)
    (hrun : clientPublish cfg st step state ts (.error reason) = (st', ok, reqs)) :
    ok = false ∧ st'.disabled = true ∧ st'.last_error = some reason ∧
    (∀ (st₂ : ClientState) (step₂ : StepID) (state₂ : LedSignalState) (ts₂ : Int)
        (tr : Except String Unit), st₂.disabled = true →
      clientPublish cfg st₂ step₂ state₂ ts₂ tr = (st₂, false, [])) ∧
    (clientEndSession st').disabled = true ∧
    (clientStartSession cfg st' sid).1.disabled = false ∧
    (clientStartSession cfg st' sid).1.last_error = none ∧
    (clientStartSession cfg st' sid).1.last_states = [] := by
  rw [clientPublish, if_neg (by simp [hen, hdis, hsid]), if_neg hdup] at hrun
  simp only [Prod.mk.injEq] at hrun
  obtain ⟨h1, h2, h3⟩ := hrun
  rw [clientDisable, if_neg (by simp [hdis])] at h1
  subst h1; subst h2
  refine ⟨rfl, rfl, rfl, ?_, rfl, ?_, ?_, ?_⟩
  · intro st₂ step₂ state₂ ts₂ tr hd
    rw [clientPublish, if_pos (by simp [hd])]
  all_goals rw [clientStartSession, if_neg (by simp [hen])]

theorem esp8266_error_disables_witness :
    wecfg.enabled = true ∧ wclient.disabled = false ∧
    pyTruthyStr wclient.session_id = true ∧
    lastStatesGet wclient.last_states .STEP_2 ≠ some .CURRENT ∧
    (false = false ∧ wclientD.disabled = true ∧ wclientD.last_error = some "boom" ∧
      (∀ (st₂ : ClientState) (step₂ : StepID) (state₂ : LedSignalState) (ts₂ : Int)
          (tr : Except String Unit), st₂.disabled = true →
        clientPublish wecfg st₂ step₂ state₂ ts₂ tr = (st₂, false, [])) ∧
      (clientEndSession wclientD).disabled = true ∧
      (clientStartSession wecfg wclientD "t").1.disabled = false ∧
      (clientStartSession wecfg wclientD "t").1.last_error = none ∧
      (clientStartSession wecfg wclientD "t").1.last_states = []) :=
  ⟨rfl, rfl, by decide, by decide,
    esp8266_error_disables wecfg wclient wclientD .STEP_2 .CURRENT 5 "boom" false
      [.signal (buildPayload wecfg .STEP_2 .CURRENT 5)] "t"
      rfl rfl (by decide) (by decide) (by decide)⟩

/-! ## C4: session start boundary -/

theorem pushWindow_lastN (W : Nat) (g : List Bool) (b : Bool) :
    pushWindow W (lastN W g) b = lastN W (g ++ [b]) := by
  unfold pushWindow lastN
  rw [← List.drop_append_of_le_length (by omega)]
  rw [List.drop_drop]
  congr 1
  simp only [List.length_drop, List.length_append, List.length_cons, List.length_nil]
  omega

theorem fullOk_iff_windowOk (gates : List Bool) (W i : Nat) (hi : i < gates.length) :
    fullOk W (lastN W (gates.take (i + 1))) = true ↔ windowOk gates W i := by
  unfold fullOk lastN windowOk
  have hlen : (gates.take (i + 1)).length = i + 1 := by rw [List.length_take]; omega
  rw [hlen, Bool.and_eq_true, decide_eq_true_iff, List.all_eq_true]
  constructor
  · rintro ⟨h1, h2⟩
    rw [List.length_drop, hlen] at h1
    refine ⟨by omega, ?_⟩
    intro j hj hjW
    rw [List.mem_range] at hj
    have hidx : j - (i + 1 - W) < ((gates.take (i + 1)).drop (i + 1 - W)).length := by
      rw [List.length_drop, hlen]; omega
    have hval := h2 _ (List.get_mem _ _ hidx)
    have hj2 : (i + 1 - W) + (j - (i + 1 - W)) = j := by omega
    have hg : ((gates.take (i + 1)).drop (i + 1 - W)).get ⟨j - (i + 1 - W), hidx⟩
        = gates.getD j false := by
      simp [List.getElem_drop, List.getElem_take, List.getD_eq_getElem?_getD,
        List.getElem?_eq_getElem (show j < gates.length by omega), hj2]
    rw [hg] at hval
    simpa using hval
  · rintro ⟨h1, h2⟩
    refine ⟨by rw [List.length_drop, hlen]; omega, ?_⟩
    intro b hb
    rw [List.mem_iff_get] at hb
    obtain ⟨⟨m, hmlt⟩, rfl⟩ := hb
    have hmlt2 : m < (i + 1) - (i + 1 - W) := by
      have := hmlt; rw [List.length_drop, hlen] at this; exact this
    have hg : ((gates.take (i + 1)).drop (i + 1 - W)).get ⟨m, hmlt⟩
        = gates.getD ((i + 1 - W) + m) false := by
      simp [List.getElem_drop, List.getElem_take, List.getD_eq_getElem?_getD,
        List.getElem?_eq_getElem (show (i + 1 - W) + m < gates.length by omega)]
    rw [hg]
    simp only [id]
    exact h2 _ (by rw [List.mem_range]; omega) (by omega)


theorem smProcessFrame_idle (cfg : Config) (uuid : String) (w : List Bool) (p : FramePacket) :
    smProcessFrame cfg uuid (mkIdle w) p =
      (if fullOk cfg.session.start_window_frames
          (pushWindow cfg.session.start_window_frames w (meetsStartConditions cfg p)) then
        (mkActive (pushWindow cfg.session.start_window_frames w (meetsStartConditions cfg p))
          uuid p.timestamp_ms p.timestamp_ms, [startedEvent cfg uuid p.timestamp_ms])
       else
        (mkIdle (pushWindow cfg.session.start_window_frames w (meetsStartConditions cfg p)), [])) := by
  have halign : ∀ w' : List Bool,
      (w'.length = cfg.session.start_window_frames ∧ w'.all id) ↔
        fullOk cfg.session.start_window_frames w' = true := by
    intro w'
    rw [fullOk, Bool.and_eq_true, decide_eq_true_iff]
  rw [smProcessFrame]
  simp only [mkIdle, mkActive, smStartSession]
  rw [if_pos (show ¬(false = true) by simp)]
  by_cases hful : fullOk cfg.session.start_window_frames
      (pushWindow cfg.session.start_window_frames w (meetsStartConditions cfg p)) = true
  · rw [if_pos ((halign _).mpr hful), if_pos hful]
  · rw [if_neg (fun hc => hful ((halign _).mp hc)), if_neg (by simp [hful])]

theorem smRun_idle (cfg : Config) (u : Nat → String) (ps : List FramePacket) :
    ∀ (idx : Nat) (g : List Bool) (i : Nat) (hi : i < ps.length),
    (∀ k < i, fullOk cfg.session.start_window_frames
        (lastN cfg.session.start_window_frames (g ++ (gateList cfg ps).take (k + 1))) = false) →
    (∀ k < i, (smRunEvents cfg u idx
        (mkIdle (lastN cfg.session.start_window_frames g)) ps).getD k [] = []) ∧
    (fullOk cfg.session.start_window_frames
        (lastN cfg.session.start_window_frames (g ++ (gateList cfg ps).take (i + 1))) = true →
      (smRunEvents cfg u idx (mkIdle (lastN cfg.session.start_window_frames g)) ps).getD i []
        = [startedEvent cfg (u (idx + i)) ((ps.get ⟨i, hi⟩).timestamp_ms)]) ∧
    (fullOk cfg.session.start_window_frames
        (lastN cfg.session.start_window_frames (g ++ (gateList cfg ps).take (i + 1))) = false →
      (smRunEvents cfg u idx (mkIdle (lastN cfg.session.start_window_frames g)) ps).getD i []
        = []) := by
  induction ps with
  | nil => intro idx g i hi; exact absurd hi (by simp)
  | cons p rest ih =>
    intro idx g i hi hfirst
    have hstep := smProcessFrame_idle cfg (u idx) (lastN cfg.session.start_window_frames g) p
    rw [pushWindow_lastN] at hstep
    have htake1 : (gateList cfg (p :: rest)).take 1 = [meetsStartConditions cfg p] := rfl
    cases i with
    | zero =>
      refine ⟨fun k hk => absurd hk (by omega), ?_, ?_⟩
      · intro hful
        rw [htake1] at hful
        rw [smRunEvents, hstep, if_pos hful]
        rfl
      · intro hful
        rw [htake1] at hful
        rw [smRunEvents, hstep, if_neg (by simp [hful])]
        rfl
    | succ k =>
      have h0 : fullOk cfg.session.start_window_frames
          (lastN cfg.session.start_window_frames
            (g ++ [meetsStartConditions cfg p])) = false := by
        have := hfirst 0 (by omega)
        rwa [htake1] at this
      have hk : k < rest.length := by
        simp only [List.length_cons] at hi; omega
      have htail := ih (idx + 1) (g ++ [meetsStartConditions cfg p]) k hk
        (by
          intro k2 hk2
          have := hfirst (k2 + 1) (by omega)
          rw [show (gateList cfg (p :: rest)).take (k2 + 2)
              = meetsStartConditions cfg p :: (gateList cfg rest).take (k2 + 1) from rfl,
            show g ++ (meetsStartConditions cfg p :: (gateList cfg rest).take (k2 + 1))
              = (g ++ [meetsStartConditions cfg p]) ++ (gateList cfg rest).take (k2 + 1) from by
              simp] at this
          exact this)
      rw [smRunEvents, hstep, if_neg (by simp [h0])]
      refine ⟨?_, ?_, ?_⟩
      · intro k2 hk2
        cases k2 with
        | zero => rfl
        | succ k3 =>
          rw [List.getD_cons_succ]
          exact htail.1 k3 (by omega)
      · intro hful
        rw [List.getD_cons_succ]
        rw [show (gateList cfg (p :: rest)).take (k + 2)
            = meetsStartConditions cfg p :: (gateList cfg rest).take (k + 1) from rfl] at hful
        rw [show g ++ (meetsStartConditions cfg p :: (gateList cfg rest).take (k + 1))
            = (g ++ [meetsStartConditions cfg p]) ++ (gateList cfg rest).take (k + 1) from by
          simp] at hful
        have := htail.2.1 hful
        rw [this, show (idx + 1) + k = idx + (k + 1) from by omega]
        rfl
      · intro hful
        rw [List.getD_cons_succ]
        rw [show (gateList cfg (p :: rest)).take (k + 2)
            = meetsStartConditions cfg p :: (gateList cfg rest).take (k + 1) from rfl] at hful
        rw [show g ++ (meetsStartConditions cfg p :: (gateList cfg rest).take (k + 1))
            = (g ++ [meetsStartConditions cfg p]) ++ (gateList cfg rest).take (k + 1) from by
          simp] at hful
        exact htail.2.2 hful


/-- **C4.** From the idle state, the gate emits `SessionStarted` exactly on
the frame whose `gate_ok` evaluation completes a fully-`gate_ok` window of
`start_window_frames` entries, with the session start timestamp equal to
that frame's `timestamp_ms`, and emits nothing on any earlier frame. -/
theorem session_start_boundary (cfg : Config) (u : Nat → String) (ps : List FramePacket)
    (i : Nat) (hi : i < ps.length)
    (hfirst : ∀ k < i, ¬ windowOk (gateList cfg ps) cfg.session.start_window_frames k) :
    (∀ k < i, (smRunEvents cfg u 0 smInit ps).getD k [] = []) ∧
    (windowOk (gateList cfg ps) cfg.session.start_window_frames i →
      (smRunEvents cfg u 0 smInit ps).getD i []
        = [startedEvent cfg (u i) ((ps.get ⟨i, hi⟩).timestamp_ms)]) ∧
    (¬ windowOk (gateList cfg ps) cfg.session.start_window_frames i →
      (smRunEvents cfg u 0 smInit ps).getD i [] = []) := by
  have hglen : (gateList cfg ps).length = ps.length := by simp [gateList]
  have hfirstF : ∀ k < i, fullOk cfg.session.start_window_frames
      (lastN cfg.session.start_window_frames
        (([] : List Bool) ++ (gateList cfg ps).take (k + 1))) = false := by
    intro k hk
    rw [List.nil_append]
    cases hb : fullOk cfg.session.start_window_frames
        (lastN cfg.session.start_window_frames ((gateList cfg ps).take (k + 1))) with
    | false => rfl
    | true =>
      exact absurd ((fullOk_iff_windowOk _ _ _ (by omega)).mp hb) (hfirst k hk)
  have hmain := smRun_idle cfg u ps 0 [] i hi hfirstF
  have hinit : mkIdle (lastN cfg.session.start_window_frames []) = smInit := by
    rw [show lastN cfg.session.start_window_frames [] = [] from by simp [lastN]]
    rfl
  rw [hinit] at hmain
  refine ⟨fun k hk => hmain.1 k hk, ?_, ?_⟩
  · intro hwin
    have hb : fullOk cfg.session.start_window_frames
        (lastN cfg.session.start_window_frames
          (([] : List Bool) ++ (gateList cfg ps).take (i + 1))) = true := by
      rw [List.nil_append]
      exact (fullOk_iff_windowOk _ _ _ (by omega)).mpr hwin
    have := hmain.2.1 hb
    rwa [show (0 : Nat) + i = i from by omega] at this
  · intro hwin
    have hb : fullOk cfg.session.start_window_frames
        (lastN cfg.session.start_window_frames
          (([] : List Bool) ++ (gateList cfg ps).take (i + 1))) = false := by
      rw [List.nil_append]
      cases hb2 : fullOk cfg.session.start_window_frames
          (lastN cfg.session.start_window_frames ((gateList cfg ps).take (i + 1))) with
      | false => rfl
      | true => exact absurd ((fullOk_iff_windowOk _ _ _ (by omega)).mp hb2) hwin
    exact hmain.2.2 hb

theorem session_start_boundary_witness :
    (∀ k < 2, ¬ windowOk (gateList wcfg c4packets) wcfg.session.start_window_frames k) ∧
    windowOk (gateList wcfg c4packets) wcfg.session.start_window_frames 2 ∧
    (∀ k < 2, (smRunEvents wcfg (fun _ => "sid") 0 smInit c4packets).getD k [] = []) ∧
    (smRunEvents wcfg (fun _ => "sid") 0 smInit c4packets).getD 2 []
      = [startedEvent wcfg "sid" ((c4packets.get ⟨2, by decide⟩).timestamp_ms)] :=
  ⟨by decide, by decide,
   (session_start_boundary wcfg (fun _ => "sid") c4packets 2 (by decide) (by decide)).1,
   (session_start_boundary wcfg (fun _ => "sid") c4packets 2 (by decide)
     (by decide)).2.1 (by decide)⟩

/-! ## C5: session end boundary -/

theorem smProcessFrame_active (cfg : Config) (uuid : String) (w : List Bool)
    (sid : String) (S L : Int) (p : FramePacket) :
    smProcessFrame cfg uuid (mkActive w sid S L) p =
      (if meetsStartConditions cfg p then
        (mkActive (pushWindow cfg.session.start_window_frames w (meetsStartConditions cfg p))
          sid S p.timestamp_ms, [])
       else if cfg.session.stop_timeout_ms ≤ p.timestamp_ms - L then
        (smInit, [endedEvent cfg sid p.timestamp_ms "timeout" (max 0 (p.timestamp_ms - S))])
       else
        (mkActive (pushWindow cfg.session.start_window_frames w (meetsStartConditions cfg p))
          sid S L, [])) := by
  rw [smProcessFrame]
  simp only [mkActive]
  rw [if_neg (show ¬¬True by simp)]
  by_cases hg : meetsStartConditions cfg p = true
  · rw [if_pos hg, if_pos hg]
  · rw [if_neg hg, if_neg hg]
    by_cases ht : cfg.session.stop_timeout_ms ≤ p.timestamp_ms - L
    · rw [if_pos (by omega : p.timestamp_ms - L ≥ cfg.session.stop_timeout_ms), if_pos ht]
      rw [smEndSession]
      rfl
    · rw [if_neg (by omega : ¬ p.timestamp_ms - L ≥ cfg.session.stop_timeout_ms), if_neg ht]

theorem endCond_cons (cfg : Config) (p : FramePacket) (rest : List FramePacket)
    (L : Int) (k : Nat) :
    endCond cfg (p :: rest) L (k + 1) ↔
      endCond cfg rest (if meetsStartConditions cfg p then p.timestamp_ms else L) k :=
  Iff.rfl

theorem endCond_zero (cfg : Config) (p : FramePacket) (rest : List FramePacket) (L : Int) :
    endCond cfg (p :: rest) L 0 ↔
      (meetsStartConditions cfg p = false ∧
        cfg.session.stop_timeout_ms ≤ p.timestamp_ms - L) :=
  Iff.rfl

theorem smRun_active (cfg : Config) (u : Nat → String) (ps : List FramePacket) :
    ∀ (idx : Nat) (w : List Bool) (sid : String) (S L : Int) (i : Nat), i < ps.length →
    (∀ k < i, ¬ endCond cfg ps L k) →
    (∀ hi : i < ps.length,
    (∀ k < i, (smRunEvents cfg u idx (mkActive w sid S L) ps).getD k [] = []) ∧
    (endCond cfg ps L i →
      (smRunEvents cfg u idx (mkActive w sid S L) ps).getD i []
        = [endedEvent cfg sid ((ps.get ⟨i, hi⟩).timestamp_ms) "timeout"
            (max 0 ((ps.get ⟨i, hi⟩).timestamp_ms - S))]) ∧
    (¬ endCond cfg ps L i →
      (smRunEvents cfg u idx (mkActive w sid S L) ps).getD i [] = [])) := by
  induction ps with
  | nil => intro idx w sid S L i hi; exact absurd hi (by simp)
  | cons p rest ih =>
    intro idx w sid S L i hi0 hfirst hi
    have hstep := smProcessFrame_active cfg (u idx) w sid S L p
    by_cases hg : meetsStartConditions cfg p = true
    · rw [if_pos hg] at hstep
      cases i with
      | zero =>
        refine ⟨fun k hk => absurd hk (by omega), ?_, ?_⟩
        · intro hc
          rw [endCond_zero] at hc
          rw [hg] at hc
          exact absurd hc.1 (by simp)
        · intro _
          rw [smRunEvents, hstep]
          rfl
      | succ k =>
        have hk : k < rest.length := by simp only [List.length_cons] at hi; omega
        have htail := ih (idx + 1)
          (pushWindow cfg.session.start_window_frames w (meetsStartConditions cfg p))
          sid S p.timestamp_ms k hk
          (by
            intro k2 hk2
            have := hfirst (k2 + 1) (by omega)
            rwa [endCond_cons, if_pos hg] at this) hk
        rw [smRunEvents, hstep]
        refine ⟨?_, ?_, ?_⟩
        · intro k2 hk2
          cases k2 with
          | zero => rfl
          | succ k3 =>
            rw [List.getD_cons_succ]
            exact htail.1 k3 (by omega)
        · intro hc
          rw [endCond_cons, if_pos hg] at hc
          rw [List.getD_cons_succ, htail.2.1 hc]
          rfl
        · intro hc
          rw [endCond_cons, if_pos hg] at hc
          rw [List.getD_cons_succ]
          exact htail.2.2 hc
    · have hgf : meetsStartConditions cfg p = false := by simpa using hg
      rw [if_neg hg] at hstep
      by_cases ht : cfg.session.stop_timeout_ms ≤ p.timestamp_ms - L
      · rw [if_pos ht] at hstep
        cases i with
        | zero =>
          refine ⟨fun k hk => absurd hk (by omega), ?_, ?_⟩
          · intro _
            rw [smRunEvents, hstep]
            rfl
          · intro hc
            exact absurd ((endCond_zero cfg p rest L).mpr ⟨hgf, ht⟩) hc
        | succ k =>
          exact absurd ((endCond_zero cfg p rest L).mpr ⟨hgf, ht⟩)
            (hfirst 0 (by omega))
      · rw [if_neg ht] at hstep
        cases i with
        | zero =>
          refine ⟨fun k hk => absurd hk (by omega), ?_, ?_⟩
          · intro hc
            rw [endCond_zero] at hc
            exact absurd hc.2 ht
          · intro _
            rw [smRunEvents, hstep]
            rfl
        | succ k =>
          have hk : k < rest.length := by simp only [List.length_cons] at hi; omega
          have htail := ih (idx + 1)
            (pushWindow cfg.session.start_window_frames w (meetsStartConditions cfg p))
            sid S L k hk
            (by
              intro k2 hk2
              have := hfirst (k2 + 1) (by omega)
              rwa [endCond_cons, if_neg hg] at this) hk
          rw [smRunEvents, hstep]
          refine ⟨?_, ?_, ?_⟩
          · intro k2 hk2
            cases k2 with
            | zero => rfl
            | succ k3 =>
              rw [List.getD_cons_succ]
              exact htail.1 k3 (by omega)
          · intro hc
            rw [endCond_cons, if_neg hg] at hc
            rw [List.getD_cons_succ, htail.2.1 hc]
            rfl
          · intro hc
            rw [endCond_cons, if_neg hg] at hc
            rw [List.getD_cons_succ]
            exact htail.2.2 hc


/-- **C5.** From an active state, the gate emits `SessionEnded` with
`reason=timeout` exactly on the first not-`gate_ok` frame whose timestamp is
at least `stop_timeout_ms` past the running `last_active_ts`, carrying
`duration_ms = ts − session_start_ts`; every `gate_ok` frame just updates
`last_active_ts` and emits nothing. -/
theorem session_end_boundary (cfg : Config) (u : Nat → String) (ps : List FramePacket)
    (w : List Bool) (sid : String) (S L : Int) (i : Nat) (hi : i < ps.length)
    (hfirst : ∀ k < i, ¬ endCond cfg ps L k)
    (hS : S ≤ (ps.get ⟨i, hi⟩).timestamp_ms) :
    (∀ k < i, (smRunEvents cfg u 0 (mkActive w sid S L) ps).getD k [] = []) ∧
    (endCond cfg ps L i →
      (smRunEvents cfg u 0 (mkActive w sid S L) ps).getD i []
        = [endedEvent cfg sid ((ps.get ⟨i, hi⟩).timestamp_ms) "timeout"
            ((ps.get ⟨i, hi⟩).timestamp_ms - S)]) ∧
    (¬ endCond cfg ps L i →
      (smRunEvents cfg u 0 (mkActive w sid S L) ps).getD i [] = []) ∧
    (∀ (uuid : String) (p : FramePacket), meetsStartConditions cfg p = true →
      smProcessFrame cfg uuid (mkActive w sid S L) p =
        (mkActive (pushWindow cfg.session.start_window_frames w true) sid S p.timestamp_ms,
          [])) := by
  have hmain := smRun_active cfg u ps 0 w sid S L i hi hfirst hi
  refine ⟨hmain.1, ?_, hmain.2.2, ?_⟩
  · intro hc
    have := hmain.2.1 hc
    rwa [max_eq_right (by omega : (0 : Int) ≤ (ps.get ⟨i, hi⟩).timestamp_ms - S)] at this
  · intro uuid p hg
    rw [smProcessFrame_active, if_pos hg, hg]

theorem session_end_boundary_witness :
    (∀ k < 1, ¬ endCond wcfg c5packets 100 k) ∧
    (0 : Int) ≤ (c5packets.get ⟨1, by decide⟩).timestamp_ms ∧
    endCond wcfg c5packets 100 1 ∧
    (∀ k < 1, (smRunEvents wcfg (fun _ => "u") 0 (mkActive [] "sid" 0 100) c5packets).getD
      k [] = []) ∧
    (smRunEvents wcfg (fun _ => "u") 0 (mkActive [] "sid" 0 100) c5packets).getD 1 []
      = [endedEvent wcfg "sid" ((c5packets.get ⟨1, by decide⟩).timestamp_ms) "timeout"
          ((c5packets.get ⟨1, by decide⟩).timestamp_ms - 0)] :=
  ⟨by decide, by decide, by decide,
   (session_end_boundary wcfg (fun _ => "u") c5packets [] "sid" 0 100 1 (by decide)
     (by decide) (by decide)).1,
   (session_end_boundary wcfg (fun _ => "u") c5packets [] "sid" 0 100 1 (by decide)
     (by decide) (by decide)).2.1 (by decide)⟩

/-! ## C7: replay verification -/

set_option maxRecDepth 4000 in
/-- **C7 counterexample.** `c7asset` is a valid asset on which the replay
pipeline's completion set (`{STEP_3}`) equals the set of annotated steps
whose summed annotation duration reaches the configured threshold, yet
`_verify_asset` fails: the step completed during the first annotated segment
with orientation `RIGHT_OVER_LEFT` while the last annotated orientation is
`LEFT_OVER_RIGHT`. -/
theorem replay_verify_counterexample :
    ValidAsset c7asset ∧
    (∀ step : StepID,
      ((demoRun c7cfg c7asset (fun _ => "sid")).interp.statuses step).state = .COMPLETED ↔
        (isAnnotated c7asset step = true ∧
          (c7cfg.steps step).duration_ms ≤ annotationDuration c7asset step)) ∧
    verifyAsset c7cfg c7asset (demoRun c7cfg c7asset (fun _ => "sid")).interp.statuses
      = false :=
  ⟨by decide, by decide, by decide⟩


/-- **C7 (amended).** Verification returns PASS whenever the completion set
equals the set of annotated steps whose summed annotation duration reaches
the config threshold AND every completed step whose last annotated
orientation is not `NONE` has that orientation recorded. -/
theorem replay_verify_pass (cfg : Config) (asset : DemoAsset) (snap : StepID → StepStatus)
    (hsets : ∀ step : StepID, ((snap step).state = .COMPLETED ↔
      (isAnnotated asset step = true ∧
        (cfg.steps step).duration_ms ≤ annotationDuration asset step)))
    (horient : ∀ step : StepID, (snap step).state = .COMPLETED →
      ∀ o, lastOrientation asset step = some o → o ≠ .NONE →
        (snap step).orientation = o) :
    verifyAsset cfg asset snap = true := by
  rw [verifyAsset, List.all_eq_true]
  intro step hstep
  simp only
  by_cases hann : isAnnotated asset step = true
  · rw [if_pos hann, Bool.and_eq_true]
    constructor
    · rw [beq_iff_eq, decide_eq_decide, ge_iff_le, hsets step]
      simp [hann]
    · by_cases hdid : (snap step).state = .COMPLETED
      · rw [if_pos (by simpa using hdid)]
        cases ho : lastOrientation asset step with
        | none => rfl
        | some o =>
          by_cases hno : o = StepOrientation.NONE
          · simp [hno]
          · simp [hno, horient step hdid o ho hno]
      · rw [if_neg (by simpa using hdid)]
  · rw [if_neg hann]
    have hnc : (snap step).state ≠ .COMPLETED := by
      intro hc
      exact hann ((hsets step).mp hc).1
    simp [hnc]

theorem replay_verify_pass_witness :
    (∀ step : StepID, ((interpInit.statuses step).state = .COMPLETED ↔
      (isAnnotated c9asset step = true ∧
        (wcfg.steps step).duration_ms ≤ annotationDuration c9asset step))) ∧
    (∀ step : StepID, (interpInit.statuses step).state = .COMPLETED →
      ∀ o, lastOrientation c9asset step = some o → o ≠ .NONE →
        (interpInit.statuses step).orientation = o) ∧
    verifyAsset wcfg c9asset interpInit.statuses = true :=
  ⟨by decide, by decide,
   replay_verify_pass wcfg c9asset interpInit.statuses (by decide) (by decide)⟩

end Deltawash
namespace Deltawash

theorem pyTruthy_eraseSid (o : Option String) :
    pyTruthyStr (eraseSid o) = pyTruthyStr o := by
  rcases o with _ | s
  · rfl
  · by_cases h : s = "" <;> simp [eraseSid, pyTruthyStr, eraseSidStr, h]

theorem eraseInterp_statuses (st : InterpState) :
    (eraseInterp st).statuses = st.statuses := rfl

theorem processSignals_erase (cfg : Config) (st : InterpState)
    (sigs : List StepSignal) (ts : Int) :
    processSignals cfg (eraseInterp st) sigs ts = eraseInterp (processSignals cfg st sigs ts) := by
  by_cases h : pyTruthyStr st.session_id = true
  · rw [processSignals, processSignals]
    rw [if_pos (by rw [show (eraseInterp st).session_id = eraseSid st.session_id from rfl,
      pyTruthy_eraseSid]; exact h), if_pos h]
    rfl
  · rw [processSignals, processSignals]
    rw [if_neg (by rw [show (eraseInterp st).session_id = eraseSid st.session_id from rfl,
      pyTruthy_eraseSid]; exact h), if_neg h]

theorem interpStart_erase (st : InterpState) (s : String) :
    interpStartSession (eraseInterp st) (eraseSidStr s)
      = eraseInterp (interpStartSession st s) := rfl

theorem interpEnd_erase (st : InterpState) :
    interpEndSession (eraseInterp st) = eraseInterp (interpEndSession st) := by
  by_cases h : pyTruthyStr st.session_id = true
  · rw [interpEndSession, interpEndSession]
    rw [if_pos (by rw [show (eraseInterp st).session_id = eraseSid st.session_id from rfl,
      pyTruthy_eraseSid]; exact h), if_pos h]
    rfl
  · rw [interpEndSession, interpEndSession]
    rw [if_neg (by rw [show (eraseInterp st).session_id = eraseSid st.session_id from rfl,
      pyTruthy_eraseSid]; exact h), if_neg h]

theorem handleSessionEvent_erase (cfg : Config) (a : AppState) (e : SessionEvent) :
    handleSessionEvent cfg (eraseApp a) (eraseEvent e) = eraseApp (handleSessionEvent cfg a e) := by
  rcases e with ⟨ty, sid, ts, cv, roi, reason, dur⟩
  cases ty with
  | STARTED => rfl
  | ENDED =>
    simp only [handleSessionEvent, eraseEvent, eraseApp, interpEnd_erase,
      List.map_append, List.map_cons, List.map_nil]
    rfl

theorem applyEvents_erase (cfg : Config) (a : AppState) (evs : List SessionEvent) :
    applyEvents cfg (eraseApp a) (evs.map eraseEvent) = eraseApp (applyEvents cfg a evs) := by
  induction evs generalizing a with
  | nil => rfl
  | cons e rest ih =>
    rw [List.map_cons]
    rw [applyEvents, List.foldl_cons, handleSessionEvent_erase]
    rw [applyEvents, List.foldl_cons]
    exact ih (handleSessionEvent cfg a e)

end Deltawash
namespace Deltawash

theorem smProcessFrame_erase (cfg : Config) (u : String) (st : SMState) (p : FramePacket)
    (hu : u ≠ "") :
    smProcessFrame cfg "#" (eraseSM st) p
      = (eraseSM (smProcessFrame cfg u st p).1, (smProcessFrame cfg u st p).2.map eraseEvent) := by
  rcases st with ⟨w, act, csid, sst, lat⟩
  cases act <;> rcases csid with _ | s <;> rcases sst with _ | S <;> rcases lat with _ | L <;>
    simp only [smProcessFrame, eraseSM, eraseSid, smStartSession, smEndSession,
      startedEvent, endedEvent, eraseEvent, eraseSidStr, List.map_cons, List.map_nil] <;>
    split_ifs <;>
    simp_all [eraseEvent, eraseSidStr, hu]

end Deltawash

namespace Deltawash

theorem smReset_erase (cfg : Config) (st : SMState) :
    smReset cfg (eraseSM st)
      = (eraseSM (smReset cfg st).1, (smReset cfg st).2.map eraseEvent) := by
  rcases st with ⟨w, act, csid, sst, lat⟩
  cases act <;> rcases csid with _ | s <;> rcases sst with _ | S <;>
    simp only [smReset, eraseSM, eraseSid, smEndSession, endedEvent, eraseEvent, eraseSidStr,
      List.map_cons, List.map_nil] <;>
    split_ifs <;> simp_all [eraseEvent, eraseSidStr]

theorem demoPrimePacket_erase (cfg : Config) (u : String) (a : AppState) (p : FramePacket)
    (hu : u ≠ "") :
    demoPrimePacket cfg "#" (eraseApp a) p = eraseApp (demoPrimePacket cfg u a p) := by
  have h := smProcessFrame_erase cfg u a.sm p hu
  show applyEvents cfg { eraseApp a with sm := (smProcessFrame cfg "#" (eraseSM a.sm) p).1 }
      (smProcessFrame cfg "#" (eraseSM a.sm) p).2
    = eraseApp (applyEvents cfg { a with sm := (smProcessFrame cfg u a.sm p).1 }
      (smProcessFrame cfg u a.sm p).2)
  rw [h]
  exact applyEvents_erase cfg { a with sm := (smProcessFrame cfg u a.sm p).1 }
    (smProcessFrame cfg u a.sm p).2

theorem demoSignalsStep_erase (cfg : Config) (a : AppState) (p : FramePacket) :
    demoSignalsStep cfg (eraseApp a) p = eraseApp (demoSignalsStep cfg a p) := by
  simp only [demoSignalsStep, show (eraseApp a).sm = eraseSM a.sm from rfl,
    show (eraseApp a).synth = a.synth from rfl,
    show (eraseApp a).interp = eraseInterp a.interp from rfl,
    show (eraseSM a.sm).session_active = a.sm.session_active from rfl,
    processSignals_erase]
  split_ifs <;> rfl

theorem demoStepPacket_erase (cfg : Config) (u : String) (a : AppState) (p : FramePacket)
    (hu : u ≠ "") :
    demoStepPacket cfg "#" (eraseApp a) p = eraseApp (demoStepPacket cfg u a p) := by
  rw [demoStepPacket, demoStepPacket, demoPrimePacket_erase cfg u a p hu,
    demoSignalsStep_erase]

theorem runFrames_erase (cfg : Config)
    (step : Config → String → AppState → FramePacket → AppState)
    (hstep : ∀ (uuid : String) (a : AppState) (p : FramePacket), uuid ≠ "" →
      step cfg "#" (eraseApp a) p = eraseApp (step cfg uuid a p))
    (u : Nat → String) (hu : ∀ i, u i ≠ "")
    (ps : List FramePacket) :
    ∀ (i₀ : Nat) (a : AppState),
      runFrames step cfg (fun _ => "#") i₀ (eraseApp a) ps
        = eraseApp (runFrames step cfg u i₀ a ps) := by
  induction ps with
  | nil => intro i₀ a; rfl
  | cons p rest ih =>
    intro i₀ a
    simp only [runFrames]
    rw [hstep (u i₀) a p (hu i₀)]
    exact ih (i₀ + 1) (step cfg (u i₀) a p)

theorem demoFinish_erase (cfg : Config) (a : AppState) :
    applyEvents cfg { eraseApp a with sm := (smReset cfg (eraseApp a).sm).1 }
      (smReset cfg (eraseApp a).sm).2
    = eraseApp (applyEvents cfg { a with sm := (smReset cfg a.sm).1 }
      (smReset cfg a.sm).2) := by
  rw [show (eraseApp a).sm = eraseSM a.sm from rfl, smReset_erase]
  exact applyEvents_erase cfg { a with sm := (smReset cfg a.sm).1 } (smReset cfg a.sm).2

theorem demoRun_erase (cfg : Config) (asset : DemoAsset) (u : Nat → String)
    (hu : ∀ i, u i ≠ "") :
    demoRun cfg asset (fun _ => "#") = eraseApp (demoRun cfg asset u) := by
  have hP := runFrames_erase cfg demoPrimePacket
    (fun uuid a p hu' => demoPrimePacket_erase cfg uuid a p hu') u hu
    (primePackets cfg) 0 appInit
  rw [show eraseApp appInit = appInit from rfl] at hP
  have hS := runFrames_erase cfg demoStepPacket
    (fun uuid a p hu' => demoStepPacket_erase cfg uuid a p hu') u hu
    ((streamPackets cfg asset).map (boostDemoPacket cfg))
    cfg.session.start_window_frames
    (runFrames demoPrimePacket cfg u 0 appInit (primePackets cfg))
  simp only [demoRun]
  rw [hP, hS]
  exact demoFinish_erase cfg (runFrames demoStepPacket cfg u cfg.session.start_window_frames
    (runFrames demoPrimePacket cfg u 0 appInit (primePackets cfg))
    ((streamPackets cfg asset).map (boostDemoPacket cfg)))

theorem stripRecord_eraseRecord (r : SessionRecordModel) :
    stripRecord (eraseRecord r) = stripRecord r := rfl

theorem map_strip_erase (l : List SessionRecordModel) :
    (l.map eraseRecord).map stripRecord = l.map stripRecord := by
  induction l with
  | nil => rfl
  | cons r t ih => simp only [List.map_cons, ih, stripRecord_eraseRecord]

/-- **C6.** Two runs of the demo replay pipeline over the same config and
asset, differing only in the fresh session ids minted (the `str(uuid4())`
suppliers), produce identical session-record lists once the `session_id`,
`start_ts` and `end_ts` fields are stripped. -/
theorem demo_replay_determinism (cfg : Config) (asset : DemoAsset)
    (u₁ u₂ : Nat → String) (h₁ : ∀ i, u₁ i ≠ "") (h₂ : ∀ i, u₂ i ≠ "") :
    (demoRun cfg asset u₁).records.map stripRecord
      = (demoRun cfg asset u₂).records.map stripRecord := by
  have e : eraseApp (demoRun cfg asset u₁) = eraseApp (demoRun cfg asset u₂) := by
    rw [← demoRun_erase cfg asset u₁ h₁, ← demoRun_erase cfg asset u₂ h₂]
  calc (demoRun cfg asset u₁).records.map stripRecord
      = ((demoRun cfg asset u₁).records.map eraseRecord).map stripRecord :=
        (map_strip_erase _).symm
    _ = (eraseApp (demoRun cfg asset u₁)).records.map stripRecord := rfl
    _ = (eraseApp (demoRun cfg asset u₂)).records.map stripRecord := by rw [e]
    _ = ((demoRun cfg asset u₂).records.map eraseRecord).map stripRecord := rfl
    _ = (demoRun cfg asset u₂).records.map stripRecord := map_strip_erase _

theorem demo_replay_determinism_witness :
    (∀ i : Nat, (fun _ : Nat => "a") i ≠ "") ∧ (∀ i : Nat, (fun _ : Nat => "b") i ≠ "") ∧
    (demoRun c7cfg c7asset (fun _ => "a")).records.map stripRecord
      = (demoRun c7cfg c7asset (fun _ => "b")).records.map stripRecord :=
  ⟨fun i => (by decide : ("a" : String) ≠ ""), fun i => (by decide : ("b" : String) ≠ ""),
   demo_replay_determinism c7cfg c7asset (fun _ => "a") (fun _ => "b")
     (fun i => (by decide : ("a" : String) ≠ "")) (fun i => (by decide : ("b" : String) ≠ ""))⟩

end Deltawash
